import Mathlib

/-!
Verification development for the TFT match-statistics pipeline.

Shallow embedding of the repository's Python sources:
  * `build_db.py`           — canonical items key, relational ingestion
  * `build_db_10k.py`       — 10k-variant ingestion (patch-bucket fallback)
  * `build_stats_item1.py`  — k = 1 item-presence aggregator
  * `build_stats_item2.py`  — k = 2 item-combination aggregator
  * `build_stats_item3.py`  — k = 3 item-combination aggregator
  * `fetch_data.py`         — simple fetch script (adds the `_derived` block)
  * `fetch_matches_10k.py`  — resumable crawler state machine

Python strings are embedded as `List Char` (`Str`); Python string
comparison is the lexicographic order on code points, which is exactly
Mathlib's lexicographic `LinearOrder (List Char)`.  SQLite tables are
embedded as lists of row structures; `INSERT OR IGNORE` honours SQLite's
primary-key semantics where a NULL key column never equals anything, and
plain `INSERT` appends unconditionally.  Fallible Python code (KeyError,
TypeError on `float(None)`) is embedded with `Option`/`Except`.
-/

set_option synthInstance.maxSize 1024

/-- Python `str`, embedded as its sequence of characters. -/
abbrev Str := List Char

/-- Write a `Str` from a Lean string literal. -/
def str (s : String) : Str := s.data

/-! ### String helpers: split, join, strip, sort -/

/-- Python `s.split(sep)` for a single-character separator: empty chunks
are preserved, `"".split(sep) = [""]`. -/
def splitSep (sep : Char) : Str → List Str
  | [] => [[]]
  | c :: rest =>
    match splitSep sep rest with
    | [] => [[]]
    | chunk :: chunks =>
      if c = sep then [] :: chunk :: chunks else (c :: chunk) :: chunks

/-- Python `sep.join(chunks)` for a single-character separator. -/
def joinSep (sep : Char) : List Str → Str
  | [] => []
  | [x] => x
  | x :: y :: rest => x ++ sep :: joinSep sep (y :: rest)

/-- Characters removed by Python `str.strip()`. -/
def isPySpace (c : Char) : Bool :=
  c = ' ' || c = '\t' || c = '\n' || c = '\x0b' || c = '\x0c' || c = '\r'

/-- Python `s.strip()`. -/
def stripStr (s : Str) : Str :=
  ((s.dropWhile isPySpace).reverse.dropWhile isPySpace).reverse

/-- Python `sorted(items)` on strings: sort by the lexicographic order on
code points.  Any correct sort agrees with Python's here because the
order is total and antisymmetric (ties are identical strings). -/
def sortStr (items : List Str) : List Str :=
  List.insertionSort (· ≤ ·) items

/-! ### `build_db.py` — `make_items_key` (the Canonicalizer) -/

/-- Embeds `build_db.make_items_key`: empty list maps to `""`, otherwise the
sorted items joined with `"|"` (duplicates preserved). -/
def make_items_key (items : List Str) : Str :=
  if items = [] then [] else joinSep '|' (sortStr items)

/-! ### Component exclusion lists of the three aggregators -/

/-- Embeds `build_stats_item1.COMPONENTS` (note the `TearOftheGoddess` spelling). -/
def COMPONENTS1 : List Str :=
  [str "TFT_Item_BFSword", str "TFT_Item_ChainVest", str "TFT_Item_GiantsBelt",
   str "TFT_Item_NeedlesslyLargeRod", str "TFT_Item_NegatronCloak",
   str "TFT_Item_RecurveBow", str "TFT_Item_SparringGloves",
   str "TFT_Item_TearOftheGoddess", str "TFT_Item_Spatula"]

/-- Embeds `build_stats_item2.BASIC_COMPONENTS` (note the `TearOfTheGoddess`
spelling, changed relative to the k = 1 and k = 3 scripts). -/
def BASIC_COMPONENTS2 : List Str :=
  [str "TFT_Item_BFSword", str "TFT_Item_ChainVest", str "TFT_Item_GiantsBelt",
   str "TFT_Item_NeedlesslyLargeRod", str "TFT_Item_NegatronCloak",
   str "TFT_Item_RecurveBow", str "TFT_Item_SparringGloves",
   str "TFT_Item_TearOfTheGoddess", str "TFT_Item_Spatula"]

/-- Embeds `build_stats_item3.COMPONENTS`. -/
def COMPONENTS3 : List Str :=
  [str "TFT_Item_BFSword", str "TFT_Item_ChainVest", str "TFT_Item_GiantsBelt",
   str "TFT_Item_NeedlesslyLargeRod", str "TFT_Item_NegatronCloak",
   str "TFT_Item_RecurveBow", str "TFT_Item_SparringGloves",
   str "TFT_Item_TearOftheGoddess", str "TFT_Item_Spatula"]

/-- Embeds `build_stats_item1.is_full_item`: `bool(item) and item not in COMPONENTS`. -/
def is_full_item1 (item : Str) : Bool :=
  item ≠ [] && item ∉ COMPONENTS1

/-- Embeds `build_stats_item2.is_full_item`. -/
def is_full_item2 (item : Str) : Bool :=
  item ≠ [] && item ∉ BASIC_COMPONENTS2

/-- Embeds `build_stats_item3.is_full_item`. -/
def is_full_item3 (item : Str) : Bool :=
  item ≠ [] && item ∉ COMPONENTS3

/-! ### `build_db.py` — relational store and ingestion -/

/-- Row of the `matches` table (PK: `match_id`). -/
structure MatchRow where
  match_id : Str
  game_datetime : Option Int
  patch_bucket : Option Str
  game_version : Option Str
  tft_set_number : Option Int
deriving DecidableEq

/-- Row of the `player_match` table (PK: `(match_id, puuid)`). -/
structure PlayerMatchRow where
  match_id : Str
  puuid : Str
  placement : Option Int
  riot_id_game_name : Option Str
  riot_id_tag_line : Option Str
deriving DecidableEq

/-- Row of the `unit_item` table (no primary key). -/
structure UnitItemRow where
  match_id : Str
  puuid : Str
  champion_id : Option Str
  unit_tier : Option Int
  item_name : Str
deriving DecidableEq

/-- Row of the `unit_loadout` table
(PK: `(match_id, puuid, champion_id, unit_tier, items_key)`). -/
structure UnitLoadoutRow where
  match_id : Str
  puuid : Str
  champion_id : Option Str
  unit_tier : Option Int
  items_key : Str
deriving DecidableEq

/-- The relational store: tables as lists of rows in insertion order. -/
structure Store where
  «matches» : List MatchRow
  player_match : List PlayerMatchRow
  unit_item : List UnitItemRow
  unit_loadout : List UnitLoadoutRow
deriving DecidableEq

def emptyStore : Store := ⟨[], [], [], []⟩

/-- SQL equality on a nullable primary-key column: a NULL never equals
anything (including another NULL), so rows with a NULL key column never
conflict. -/
def nullEq {α : Type} [DecidableEq α] (a b : Option α) : Prop :=
  match a, b with
  | some x, some y => x = y
  | _, _ => False

instance {α : Type} [DecidableEq α] : DecidableRel (nullEq (α := α)) := by
  intro a b
  cases a <;> cases b <;> simp [nullEq] <;> infer_instance

/-- SQL `INSERT OR IGNORE INTO matches`: ignored iff a row with the same
(non-null) `match_id` exists. -/
def insertMatches (tbl : List MatchRow) (r : MatchRow) : List MatchRow :=
  if ∃ r' ∈ tbl, r'.match_id = r.match_id then tbl else tbl ++ [r]

/-- SQL `INSERT OR IGNORE INTO player_match`. -/
def insertPM (tbl : List PlayerMatchRow) (r : PlayerMatchRow) : List PlayerMatchRow :=
  if ∃ r' ∈ tbl, r'.match_id = r.match_id ∧ r'.puuid = r.puuid then tbl
  else tbl ++ [r]

/-- Primary-key conflict between two `unit_loadout` rows, with SQLite's
NULL semantics on the nullable `champion_id` and `unit_tier` columns. -/
def ulConflict (a b : UnitLoadoutRow) : Prop :=
  a.match_id = b.match_id ∧ a.puuid = b.puuid ∧
    nullEq a.champion_id b.champion_id ∧ nullEq a.unit_tier b.unit_tier ∧
    a.items_key = b.items_key

instance : DecidableRel ulConflict := fun _ _ => by
  unfold ulConflict; infer_instance

/-- SQL `INSERT OR IGNORE INTO unit_loadout`. -/
def insertUL (tbl : List UnitLoadoutRow) (r : UnitLoadoutRow) : List UnitLoadoutRow :=
  if ∃ r' ∈ tbl, ulConflict r' r then tbl else tbl ++ [r]

/-! Raw match records, as read by `build_db.ingest_one_match`.  Fields the
code reads with `.get` (returning `None` when absent) are `Option`; fields
read with `[...]` (raising `KeyError` when absent) are plain, and the
KeyError path is modelled at the batch level (`processBatch`). -/

structure RawUnit where
  character_id : Option Str
  tier : Option Int
  itemNames : List Str
deriving DecidableEq

structure RawParticipant where
  puuid : Str
  placement : Option Int
  riotIdGameName : Option Str
  riotIdTagline : Option Str
  units : List RawUnit
deriving DecidableEq

/-- The `_derived` block appended by `fetch_data.py`; its fields are read
back with `.get`. -/
structure DerivedBlock where
  patch_bucket : Option Str
  game_datetime_utc : Option Str
deriving DecidableEq

structure RawInfo where
  game_datetime : Option Int
  game_version : Option Str
  tft_set_number : Option Int
  participants : List RawParticipant
deriving DecidableEq

structure RawMatch where
  match_id : Str
  info : RawInfo
  derived : Option DerivedBlock
deriving DecidableEq

def matchRowOf (m : RawMatch) : MatchRow :=
  ⟨m.match_id, m.info.game_datetime, m.derived.bind (·.patch_bucket),
   m.info.game_version, m.info.tft_set_number⟩

def pmRowOf (mid : Str) (p : RawParticipant) : PlayerMatchRow :=
  ⟨mid, p.puuid, p.placement, p.riotIdGameName, p.riotIdTagline⟩

def ulRowOf (mid pu : Str) (u : RawUnit) : UnitLoadoutRow :=
  ⟨mid, pu, u.character_id, u.tier, make_items_key u.itemNames⟩

def uiRowsOf (mid pu : Str) (u : RawUnit) : List UnitItemRow :=
  u.itemNames.map fun it => ⟨mid, pu, u.character_id, u.tier, it⟩

/-- Inner unit loop of `ingest_one_match`: write the loadout row
(INSERT OR IGNORE), then one `unit_item` row per item (plain INSERT). -/
def ingestUnit (mid pu : Str) (s : Store) (u : RawUnit) : Store :=
  { s with unit_loadout := insertUL s.unit_loadout (ulRowOf mid pu u),
           unit_item := s.unit_item ++ uiRowsOf mid pu u }

/-- Participant loop body of `ingest_one_match`. -/
def ingestParticipant (mid : Str) (s : Store) (p : RawParticipant) : Store :=
  p.units.foldl (ingestUnit mid p.puuid)
    { s with player_match := insertPM s.player_match (pmRowOf mid p) }

/-- Embeds `build_db.ingest_one_match`. -/
def ingest_one_match (s : Store) (m : RawMatch) : Store :=
  m.info.participants.foldl (ingestParticipant m.match_id)
    { s with «matches» := insertMatches s.«matches» (matchRowOf m) }

/-- The batch loop of `build_db.main`: each file is parsed and ingested
with no exception handler, so a file that fails to parse (or lacks a
required key, modelled together as `none`) raises and propagates,
aborting the batch; the store keeps what was committed before it. -/
def processBatch (s : Store) : List (Option RawMatch) → Except Store Store
  | [] => .ok s
  | none :: _ => .error s
  | some m :: rest => processBatch (ingest_one_match s m) rest

/-! ### The three combination aggregators

Each script pulls the same join

    SELECT m.patch_bucket, ul.champion_id, ul.match_id, ul.puuid,
           ul.items_key, pm.placement
    FROM unit_loadout ul JOIN matches m ... JOIN player_match pm ...
    WHERE m.patch_bucket IS NOT NULL

so an input row carries a non-null patch bucket, a nullable champion id,
match/participant ids, the loadout key and a nullable placement. -/

structure LRow where
  patch : Str
  champ : Option Str
  mid : Str
  pu : Str
  items_key : Str
  placement : Option Int
deriving DecidableEq

/-- In-memory accumulator state shared by the three scripts: the `seen`
dedup set plus the `count_games`, `sum_place` and `sum_top4` defaultdicts
(sums of integer placements are exact, so `float` is embedded as `Int`). -/
structure AggSt (K K4 : Type) where
  seen : Finset K
  count : K4 → Nat
  sum_place : K4 → Int
  sum_top4 : K4 → Nat

def initAgg (K K4 : Type) [DecidableEq K] : AggSt K K4 :=
  ⟨∅, fun _ => 0, fun _ => 0, fun _ => 0⟩

/-- One iteration of the inner dedup-and-accumulate loop, common to the
three scripts: skip if the full game key was seen, otherwise record it
and bump the three accumulators of its stats key.  `pl` is the row's
placement *as read at this point by the script*: in the k = 1 and k = 3
scripts `float(placement)` is evaluated here, so a NULL placement raises
`TypeError` (`none`). -/
def tallyOne {K K4 : Type} [DecidableEq K] [DecidableEq K4] (proj : K → K4)
    (pl : Option Int) (st : AggSt K K4) (key : K) : Option (AggSt K K4) :=
  if key ∈ st.seen then some st
  else
    match pl with
    | none => none
    | some p =>
      some { seen := insert key st.seen,
             count := fun k => if k = proj key then st.count k + 1 else st.count k,
             sum_place := fun k =>
               if k = proj key then st.sum_place k + p else st.sum_place k,
             sum_top4 := fun k =>
               if k = proj key then st.sum_top4 k + (if p ≤ 4 then 1 else 0)
               else st.sum_top4 k }

def tallyFold {K K4 : Type} [DecidableEq K] [DecidableEq K4] (proj : K → K4)
    (pl : Option Int) (st : AggSt K K4) (keys : List K) : Option (AggSt K K4) :=
  keys.foldlM (tallyOne proj pl) st

/-- Full game key of the k = 1 script: `(patch, champ, match, puuid, item)`. -/
abbrev K1full := Str × Option Str × Str × Str × Str
/-- Stats key of the k = 1 script: `(patch, champ, item)`. -/
abbrev K1stat := Str × Option Str × Str

def proj1 : K1full → K1stat := fun k => (k.1, k.2.1, k.2.2.2.2)

/-- Row loop body of `build_stats_item1.main`.  `for item in set(items)`
iterates the distinct items; the result does not depend on Python's set
iteration order, and it is embedded as `List.dedup`. -/
def item1Row (st : AggSt K1full K1stat) (r : LRow) : Option (AggSt K1full K1stat) :=
  if r.items_key = [] then some st
  else
    let items := (splitSep '|' r.items_key).filter is_full_item1
    if items = [] then some st
    else
      tallyFold proj1 r.placement st
        (items.dedup.map fun it => (r.patch, r.champ, r.mid, r.pu, it))

def item1Run (rows : List LRow) : Option (AggSt K1full K1stat) :=
  rows.foldlM item1Row (initAgg _ _)

/-- Embeds `build_stats_item2.canon_item2`: `tuple(sorted((a, b)))`. -/
def canon_item2 (a b : Str) : Str × Str :=
  if a ≤ b then (a, b) else (b, a)

/-- The index pairs `i < j` of the two nested loops, in iteration order. -/
def rawPairs {α : Type} : List α → List (α × α)
  | [] => []
  | x :: xs => (xs.map fun y => (x, y)) ++ rawPairs xs

/-- Full game key of the k = 2 script. -/
abbrev K2full := Str × Option Str × Str × Str × Str × Str
/-- Stats key of the k = 2 script. -/
abbrev K2stat := Str × Option Str × Str × Str

def proj2 : K2full → K2stat := fun k => (k.1, k.2.1, k.2.2.2.2.1, k.2.2.2.2.2)

/-- Row loop body of `build_stats_item2.main`; this script alone checks
`if placement is None: continue` before touching the items. -/
def item2Row (st : AggSt K2full K2stat) (r : LRow) : Option (AggSt K2full K2stat) :=
  match r.placement with
  | none => some st
  | some pl =>
    if r.items_key = [] then some st
    else
      let raw_items :=
        ((splitSep '|' r.items_key).filter fun it =>
          it ≠ [] && stripStr it ≠ []).map stripStr
      let items := raw_items.filter is_full_item2
      if items.length < 2 then some st
      else
        tallyFold proj2 (some pl) st
          ((rawPairs items).map fun ab =>
            let c := canon_item2 ab.1 ab.2
            (r.patch, r.champ, r.mid, r.pu, c.1, c.2))

def item2Run (rows : List LRow) : Option (AggSt K2full K2stat) :=
  rows.foldlM item2Row (initAgg _ _)

/-- Embeds `build_stats_item3.canon_item3`: `tuple(sorted((a, b, c)))`. -/
def canon_item3 (a b c : Str) : Str × Str × Str :=
  match sortStr [a, b, c] with
  | [x, y, z] => (x, y, z)
  | _ => (a, b, c)

/-- The index triples `i < j < k` of the three nested loops, in order. -/
def rawTriples {α : Type} : List α → List (α × α × α)
  | [] => []
  | x :: xs => ((rawPairs xs).map fun yz => (x, yz.1, yz.2)) ++ rawTriples xs

/-- Full game key of the k = 3 script. -/
abbrev K3full := Str × Option Str × Str × Str × Str × Str × Str
/-- Stats key of the k = 3 script. -/
abbrev K3stat := Str × Option Str × Str × Str × Str

def proj3 : K3full → K3stat :=
  fun k => (k.1, k.2.1, k.2.2.2.2.1, k.2.2.2.2.2.1, k.2.2.2.2.2.2)

/-- Row loop body of `build_stats_item3.main` (no placement-null check,
like the k = 1 script). -/
def item3Row (st : AggSt K3full K3stat) (r : LRow) : Option (AggSt K3full K3stat) :=
  if r.items_key = [] then some st
  else
    let items := (splitSep '|' r.items_key).filter is_full_item3
    if items.length < 3 then some st
    else
      tallyFold proj3 r.placement st
        ((rawTriples items).map fun t =>
          let c := canon_item3 t.1 t.2.1 t.2.2
          (r.patch, r.champ, r.mid, r.pu, c.1, c.2.1, c.2.2))

def item3Run (rows : List LRow) : Option (AggSt K3full K3stat) :=
  rows.foldlM item3Row (initAgg _ _)

/-! ### Baseline views (`v_champ_games`, `v_champ_baseline`) -/

/-- View `v_champ_games`: the distinct `(patch_bucket, champion_id, match_id,
puuid)` tuples of `unit_loadout ⋈ matches` restricted to non-null patch
buckets; SQL `GROUP BY` treats NULL champion ids as one group, which is
plain `Option` equality here. -/
def v_champ_games (s : Store) : Finset (Str × Option Str × Str × Str) :=
  (s.unit_loadout.flatMap fun ul =>
    s.«matches».filterMap fun m =>
      if m.match_id = ul.match_id then
        m.patch_bucket.map fun p => (p, ul.champion_id, ul.match_id, ul.puuid)
      else none).toFinset

/-- The `(match_id, puuid)` pairs of one `(patch, champion)` group of
`v_champ_games`. -/
def champPairs (s : Store) (p : Str) (c : Option Str) : Finset (Str × Str) :=
  ((v_champ_games s).filter fun t => t.1 = p ∧ t.2.1 = c).image
    fun t => (t.2.2.1, t.2.2.2)

/-- The `player_match` rows joined to one `(match_id, puuid)` pair. -/
def pmRowsFor (s : Store) (mp : Str × Str) : List PlayerMatchRow :=
  s.player_match.filter fun r => r.match_id = mp.1 ∧ r.puuid = mp.2

/-- SQL `COUNT(*)` of one `v_champ_baseline` group. -/
def baseline_n_games (s : Store) (p : Str) (c : Option Str) : Nat :=
  Finset.sum (champPairs s p c) fun mp => (pmRowsFor s mp).length

/-- Sum of the non-null placements of one group (SQL `AVG` numerator). -/
def baselineSum (s : Store) (p : Str) (c : Option Str) : Int :=
  Finset.sum (champPairs s p c) fun mp =>
    ((pmRowsFor s mp).filterMap (·.placement)).sum

/-- Count of the non-null placements of one group (SQL `AVG` denominator). -/
def baselineCnt (s : Store) (p : Str) (c : Option Str) : Nat :=
  Finset.sum (champPairs s p c) fun mp =>
    ((pmRowsFor s mp).filterMap (·.placement)).length

/-- SQL `AVG(pm.placement)` of one `v_champ_baseline` group: NULL (`none`)
when there is no non-null placement, otherwise the exact rational mean. -/
def baseline_avg_place (s : Store) (p : Str) (c : Option Str) : Option ℚ :=
  if baselineCnt s p c = 0 then none
  else some ((baselineSum s p c : ℚ) / (baselineCnt s p c : ℚ))

/-- Number of `unit_loadout` rows that primary-key-conflict with `r`. -/
def countUL (tbl : List UnitLoadoutRow) (r : UnitLoadoutRow) : Nat :=
  tbl.countP fun r' => decide (ulConflict r' r)

/-! ### `fetch_data.py` — patch bucketing and the saved file -/

/-- Embeds `fetch_data.PATCH_WINDOWS`, with each window-start datetime (UTC)
converted to epoch milliseconds; `dt >= start_dt` on the parsed
`game_datetime` is equivalent to `ms ≥ start_ms`. -/
def PATCH_WINDOWS : List (Str × Int) :=
  [(str "TFT16.2", 1767830400000),
   (str "TFT16.3", 1769040000000),
   (str "TFT16.4", 1770163200000)]

/-- Embeds `fetch_data.patch_bucket`: the last window whose start is not after
the game time, defaulting to `"TFT16.1x"`. -/
def patch_bucket (gms : Int) : Str :=
  PATCH_WINDOWS.foldl (fun b nt => if nt.2 ≤ gms then nt.1 else b) (str "TFT16.1x")

def natDigits (n : Nat) : Str := Nat.toDigits 10 n

def pad2 (n : Nat) : Str := if n < 10 then '0' :: natDigits n else natDigits n

/-- Civil date from days since the Unix epoch (standard era-based
conversion, as performed by `datetime.fromtimestamp(..., tz=utc)`). -/
def civilFromDays (z0 : Int) : Int × Nat × Nat :=
  let z := z0 + 719468
  let era := z.fdiv 146097
  let doe := (z - era * 146097).toNat
  let yoe := (doe - doe / 1460 + doe / 36524 - doe / 146096) / 365
  let y := (yoe : Int) + era * 400
  let doy := doe - (365 * yoe + yoe / 4 - yoe / 100)
  let mp := (5 * doy + 2) / 153
  let d := doy - (153 * mp + 2) / 5 + 1
  let m := if mp < 10 then mp + 3 else mp - 9
  (if m ≤ 2 then y + 1 else y, m, d)

/-- Embeds `fetch_data.ms_to_utc_str`: UTC `"%Y-%m-%d %H:%M:%S UTC"` of an epoch
in milliseconds. -/
def ms_to_utc_str (ms : Int) : Str :=
  let secs := ms.fdiv 1000
  let days := secs.fdiv 86400
  let rem := (secs - days * 86400).toNat
  let ymd := civilFromDays days
  natDigits ymd.1.toNat ++ str "-" ++ pad2 ymd.2.1 ++ str "-" ++ pad2 ymd.2.2
    ++ str " " ++ pad2 (rem / 3600) ++ str ":" ++ pad2 (rem % 3600 / 60)
    ++ str ":" ++ pad2 (rem % 60) ++ str " UTC"

/-- The file `fetch_data.main` writes for one fetched match: the upstream
response with the `_derived` block set (KeyError, i.e. `none`, when the
response has no `game_datetime`). -/
def fetchDataSave (m : RawMatch) : Option RawMatch :=
  match m.info.game_datetime with
  | none => none
  | some gms =>
    some { m with derived := some ⟨some (patch_bucket gms), some (ms_to_utc_str gms)⟩ }

/-- The file `fetch_matches_10k.main` writes for one fetched match:
`json.dump(match, f)` of the upstream response, unchanged. -/
def fetch10kSave (m : RawMatch) : RawMatch := m

/-! ### `fetch_matches_10k.py` — the resumable crawler state machine

The environment is deterministic: `pages i o` is the page of match ids
the API returns for seed index `i` and offset `o`, and every match-detail
fetch succeeds.  `seen` is the persisted seen-set, `disk` the set of
match ids whose file exists in `RAW_DIR`; both are persisted (atomically)
after every successful fetch, together with the crawl position, so an
interruption point is exactly a prefix of the current page's loop. -/

/-- The `for mid in match_ids` loop: stop when the target is reached;
skip a match that is in the seen-set *and* already downloaded; otherwise
fetch it, save its file, add it to the seen-set and persist.  Returns the
updated `(seen, disk)` and the list of match ids actually fetched. -/
def processPage (target : Nat) (seen disk : Finset Str) :
    List Str → (Finset Str × Finset Str) × List Str
  | [] => ((seen, disk), [])
  | mid :: rest =>
    if target ≤ seen.card then ((seen, disk), [])
    else if mid ∈ seen ∧ mid ∈ disk then processPage target seen disk rest
    else
      let res := processPage target (insert mid seen) (insert mid disk) rest
      (res.1, mid :: res.2)

/-- The `while len(seen) < TARGET_MATCHES` loop, fuelled by the number of
loop iterations still allowed.  The crawl position is `(idx, start)`
(`puuid_idx` and `page_start`); `seen` and `disk` are the persisted
seen-set and the files on disk.  Running out of seeds re-seeds from the
same (deterministic) ladder and resets the position, as the source does;
after a non-empty page the offset advances by 200, rotating to the next
seed after 3 pages (offset 600). -/
def crawl (pages : Nat → Nat → List Str) (numSeeds target : Nat) :
    Nat → Nat → Nat → Finset Str → Finset Str →
      ((Nat × Nat) × Finset Str × Finset Str) × List Str
  | 0, idx, start, seen, disk => (((idx, start), seen, disk), [])
  | fuel + 1, idx, start, seen, disk =>
    if target ≤ seen.card then (((idx, start), seen, disk), [])
    else
      let idx1 := if numSeeds ≤ idx then 0 else idx
      let start1 := if numSeeds ≤ idx then 0 else start
      let ms := pages idx1 start1
      if ms = [] then crawl pages numSeeds target fuel (idx1 + 1) 0 seen disk
      else
        let pr := processPage target seen disk ms
        let start2 := start1 + 200
        if 600 ≤ start2 then
          ((crawl pages numSeeds target fuel (idx1 + 1) 0 pr.1.1 pr.1.2).1,
            pr.2 ++ (crawl pages numSeeds target fuel (idx1 + 1) 0 pr.1.1 pr.1.2).2)
        else
          ((crawl pages numSeeds target fuel idx1 start2 pr.1.1 pr.1.2).1,
            pr.2 ++ (crawl pages numSeeds target fuel idx1 start2 pr.1.1 pr.1.2).2)

/-! ### Concrete example inputs used in the claim theorems -/

/-- A deterministic match-history oracle with one seed and one page. -/
def pagesEx : Nat → Nat → List Str :=
  fun i o => if i = 0 ∧ o = 0 then [str "m1", str "m2", str "m3"] else []

/-- A joined loadout row whose unit carries completed items `[A, A, B]`. -/
def rowAAB : LRow :=
  ⟨str "P", some (str "C"), str "M", str "U", str "ItemA|ItemA|ItemB", some 3⟩

/-- A well-formed raw match: one participant fielding one unit with one
item. -/
def exMatch : RawMatch :=
  ⟨str "M",
   ⟨some 1770163200000, some (str "V16"), some 16,
    [⟨str "U", some 1, none, none, [⟨some (str "C"), some 1, [str "ItemA"]⟩]⟩]⟩,
   none⟩

/-- A raw match whose single participant fields two units with the same
champion, the same tier and the same item multiset (in different order). -/
def exMatchDup : RawMatch :=
  ⟨str "M",
   ⟨none, none, none,
    [⟨str "U", some 1, none, none,
      [⟨some (str "C"), some 2, [str "ItemA", str "ItemB"]⟩,
       ⟨some (str "C"), some 2, [str "ItemB", str "ItemA"]⟩]⟩]⟩,
   none⟩

/-- The `player_match` rows the participant loop inserts, in order. -/
def pmRowsOf (m : RawMatch) : List PlayerMatchRow :=
  m.info.participants.map (pmRowOf m.match_id)

/-- The `unit_loadout` rows the unit loops insert, in order. -/
def ulRowsOf (m : RawMatch) : List UnitLoadoutRow :=
  m.info.participants.flatMap fun p => p.units.map (ulRowOf m.match_id p.puuid)

/-- The `unit_item` rows the unit loops insert, in order. -/
def itemRowsOf (m : RawMatch) : List UnitItemRow :=
  m.info.participants.flatMap fun p => p.units.flatMap (uiRowsOf m.match_id p.puuid)

/-- A store in which champion `C` appears twice (two tiers) for the same
`(match, participant)` pair, whose placement is 4. -/
def sEx : Store :=
  ⟨[⟨str "M", none, some (str "P"), none, none⟩],
   [⟨str "M", str "U", some 4, none, none⟩],
   [],
   [⟨str "M", str "U", some (str "C"), some 1, str "ItemA"⟩,
    ⟨str "M", str "U", some (str "C"), some 2, str "ItemA"⟩]⟩

/-- The dedup-set invariant of an accumulator: every stats-key count is
the number of distinct full game keys recorded for it, i.e. each
`(patch, champion, match, participant)` is counted at most once per
combination. -/
def countInv {K K4 : Type} [DecidableEq K] [DecidableEq K4] (proj : K → K4)
    (st : AggSt K K4) : Prop :=
  ∀ k4, st.count k4 = (st.seen.filter fun k => proj k = k4).card

/-! ## Helper lemmas and claim theorems -/

lemma components1_eq_components3 : COMPONENTS1 = COMPONENTS3 := by decide

lemma mem_components_iff (s : Str)
    (h1 : s ≠ str "TFT_Item_TearOftheGoddess")
    (h2 : s ≠ str "TFT_Item_TearOfTheGoddess") :
    s ∈ COMPONENTS1 ↔ s ∈ BASIC_COMPONENTS2 := by
  simp only [COMPONENTS1, BASIC_COMPONENTS2, List.mem_cons, List.not_mem_nil, or_false]
  tauto

/-- C4: the claim that the three aggregators use one and the same
component-exclusion set is false: the k = 2 script spells the Tear
component `TFT_Item_TearOfTheGoddess` while the k = 1 script spells it
`TFT_Item_TearOftheGoddess`, so `is_full_item` disagrees on that string. -/
theorem c4_counterexample :
    is_full_item1 (str "TFT_Item_TearOfTheGoddess") ≠
      is_full_item2 (str "TFT_Item_TearOfTheGoddess") := by decide

/-- C4 (amended): the k = 1 and k = 3 exclusion sets are identical, and
the k = 2 set agrees with them on every identifier except the two Tear
spellings, where the classifications swap: `TearOfTheGoddess` is a full
item for k = 1/3 but a component for k = 2, and `TearOftheGoddess` the
reverse. -/
theorem c4_components (s : Str) :
    (is_full_item1 s = is_full_item3 s) ∧
    (s ≠ str "TFT_Item_TearOftheGoddess" → s ≠ str "TFT_Item_TearOfTheGoddess" →
      is_full_item1 s = is_full_item2 s) ∧
    is_full_item1 (str "TFT_Item_TearOfTheGoddess") = true ∧
    is_full_item2 (str "TFT_Item_TearOfTheGoddess") = false ∧
    is_full_item1 (str "TFT_Item_TearOftheGoddess") = false ∧
    is_full_item2 (str "TFT_Item_TearOftheGoddess") = true := by
  refine ⟨?_, ?_, by decide, by decide, by decide, by decide⟩
  · simp only [is_full_item1, is_full_item3, components1_eq_components3]
  · intro h1 h2
    simp only [is_full_item1, is_full_item2]
    congr 1
    rw [decide_eq_decide]
    exact not_congr (mem_components_iff s h1 h2)

theorem c4_components_witness :
    (str "TFT_Item_GargoyleStoneplate" ≠ str "TFT_Item_TearOftheGoddess") ∧
    (str "TFT_Item_GargoyleStoneplate" ≠ str "TFT_Item_TearOfTheGoddess") ∧
    is_full_item1 (str "TFT_Item_GargoyleStoneplate") =
      is_full_item2 (str "TFT_Item_GargoyleStoneplate") :=
  ⟨by decide, by decide,
    ((c4_components (str "TFT_Item_GargoyleStoneplate")).2.1 (by decide) (by decide))⟩

/-- C5: the k = 1 and k = 3 aggregators do not filter a loadout row whose
joined placement is NULL — they evaluate `float(placement)` on it and
raise `TypeError` (`none`), aborting the run — while the k = 2 aggregator
alone checks `if placement is None: continue`, completing normally with
that row contributing to no count. -/
theorem c5_null_placement :
    (item1Run [⟨str "P", some (str "C"), str "M", str "U", str "ItemA", none⟩]).isNone
      = true ∧
    (item3Run [⟨str "P", some (str "C"), str "M", str "U",
      str "ItemA|ItemA|ItemB", none⟩]).isNone = true ∧
    (item2Run [⟨str "P", some (str "C"), str "M", str "U",
      str "ItemA|ItemA|ItemB", none⟩]).map (fun st => st.seen.card) = some 0 ∧
    (item2Run [⟨str "P", some (str "C"), str "M", str "U",
      str "ItemA|ItemA|ItemB", none⟩]).map
        (fun st => st.count (str "P", some (str "C"), str "ItemA", str "ItemA"))
      = some 0 :=
  ⟨by decide, by decide, by decide, by decide⟩

lemma sep_boundary (sep : Char) (x : Str) :
    ∀ (y u v : Str), sep ∉ x → sep ∉ y →
      x ++ sep :: u = y ++ sep :: v → x = y ∧ u = v := by
  induction x with
  | nil =>
    intro y u v _ hy h
    cases y with
    | nil => simpa using h
    | cons b y' =>
      simp only [List.nil_append, List.cons_append, List.cons.injEq] at h
      cases h.1
      exact absurd (List.mem_cons_self _ _) hy
  | cons a x' ih =>
    intro y u v hx hy h
    cases y with
    | nil =>
      simp only [List.cons_append, List.nil_append, List.cons.injEq] at h
      cases h.1
      exact absurd (List.mem_cons_self _ _) hx
    | cons b y' =>
      simp only [List.cons_append, List.cons.injEq] at h
      obtain ⟨rfl, h2⟩ := h
      obtain ⟨h3, h4⟩ := ih y' u v (fun hm => hx (List.mem_cons_of_mem _ hm))
        (fun hm => hy (List.mem_cons_of_mem _ hm)) h2
      exact ⟨by rw [h3], h4⟩

lemma joinSep_ne_nil (sep : Char) (x : Str) (xs : List Str) (hx : x ≠ []) :
    joinSep sep (x :: xs) ≠ [] := by
  cases xs with
  | nil => simpa [joinSep] using hx
  | cons y ys => simp [joinSep]

lemma sep_mem_joinSep (sep : Char) (x y : Str) (ys : List Str) :
    sep ∈ joinSep sep (x :: y :: ys) := by simp [joinSep]

lemma joinSep_inj (sep : Char) :
    ∀ (xs ys : List Str), xs ≠ [] → ys ≠ [] →
      (∀ c ∈ xs, sep ∉ c) → (∀ c ∈ ys, sep ∉ c) →
      joinSep sep xs = joinSep sep ys → xs = ys := by
  intro xs
  induction xs with
  | nil => intro ys h; exact absurd rfl h
  | cons x xs' ih =>
    intro ys _ hys hx hy h
    cases ys with
    | nil => exact absurd rfl hys
    | cons y ys' =>
      cases xs' with
      | nil =>
        cases ys' with
        | nil => simpa [joinSep] using h
        | cons y2 ys'' =>
          have hs : sep ∈ joinSep sep [x] := h ▸ sep_mem_joinSep sep y y2 ys''
          simp only [joinSep] at hs
          exact absurd hs (hx x (List.mem_cons_self _ _))
      | cons x2 xs'' =>
        cases ys' with
        | nil =>
          have hs : sep ∈ joinSep sep [y] := h ▸ sep_mem_joinSep sep x x2 xs''
          simp only [joinSep] at hs
          exact absurd hs (hy y (List.mem_cons_self _ _))
        | cons y2 ys'' =>
          simp only [joinSep] at h
          obtain ⟨rfl, h2⟩ := sep_boundary sep x (y := y)
            (u := joinSep sep (x2 :: xs'')) (v := joinSep sep (y2 :: ys''))
            (hx x (List.mem_cons_self _ _)) (hy y (List.mem_cons_self _ _)) h
          have htl := ih (y2 :: ys'') (List.cons_ne_nil _ _) (List.cons_ne_nil _ _)
            (fun c hc => hx c (List.mem_cons_of_mem _ hc))
            (fun c hc => hy c (List.mem_cons_of_mem _ hc)) h2
          rw [htl]

lemma sortStr_perm (l : List Str) : (sortStr l).Perm l :=
  List.perm_insertionSort _ _

lemma sortStr_sorted (l : List Str) : List.Sorted (· ≤ ·) (sortStr l) :=
  List.sorted_insertionSort _ _

lemma sortStr_congr {A B : List Str} (h : A.Perm B) : sortStr A = sortStr B :=
  List.eq_of_perm_of_sorted ((sortStr_perm A).trans (h.trans (sortStr_perm B).symm))
    (sortStr_sorted A) (sortStr_sorted B)

lemma make_items_key_perm {A B : List Str} (h : A.Perm B) :
    make_items_key A = make_items_key B := by
  unfold make_items_key
  rcases eq_or_ne A [] with rfl | hA
  · have : B = [] := h.symm.eq_nil
    subst this; rfl
  · have hB : B ≠ [] := fun h0 => hA ((h0 ▸ h).eq_nil)
    simp [hA, hB, sortStr_congr h]

lemma make_items_key_ne_nil {A : List Str} (hA : A ≠ []) (h : ∀ c ∈ A, c ≠ []) :
    make_items_key A ≠ [] := by
  unfold make_items_key
  simp only [hA, if_false]
  rcases hs : sortStr A with _ | ⟨x, xs⟩
  · exact absurd (List.Perm.eq_nil (hs ▸ (sortStr_perm A).symm)) hA
  · exact joinSep_ne_nil '|' x xs
      (h x ((sortStr_perm A).mem_iff.mp (hs ▸ List.mem_cons_self x xs)))

/-- C3: as stated over all identifier lists the canonical-key claim is
false: an identifier containing the separator collides with a two-item
list, `key(["a", "b"]) = "a|b" = key(["a|b"])`, though the multisets
differ. -/
theorem c3_counterexample :
    make_items_key [str "a", str "b"] = make_items_key [str "a|b"] ∧
    ¬ (List.Perm [str "a", str "b"] [str "a|b"]) := ⟨by decide, by decide⟩

/-- C3 (amended): for lists of identifiers that are nonempty and do not
contain the separator `'|'` — as all real item identifiers are — the
canonical key is order-invariant and injective over multiset identity
(`key(A) = key(B)` iff `A` and `B` are permutations), and the empty list's
sentinel key differs from the key of every non-empty list. -/
theorem c3_items_key (A B : List Str)
    (hA : ∀ c ∈ A, c ≠ [] ∧ '|' ∉ c) (hB : ∀ c ∈ B, c ≠ [] ∧ '|' ∉ c) :
    (make_items_key A = make_items_key B ↔ A.Perm B) ∧
    (A ≠ [] → make_items_key A ≠ make_items_key []) := by
  constructor
  · constructor
    · intro h
      rcases eq_or_ne A [] with rfl | hA0
      · rcases eq_or_ne B [] with rfl | hB0
        · exact List.Perm.refl _
        · exact absurd h.symm (make_items_key_ne_nil hB0 (fun c hc => (hB c hc).1))
      · rcases eq_or_ne B [] with rfl | hB0
        · exact absurd h (make_items_key_ne_nil hA0 (fun c hc => (hA c hc).1))
        · unfold make_items_key at h
          simp only [hA0, hB0, if_false] at h
          have hsne : sortStr A ≠ [] :=
            fun h0 => hA0 (List.Perm.eq_nil (h0 ▸ (sortStr_perm A).symm))
          have hsne' : sortStr B ≠ [] :=
            fun h0 => hB0 (List.Perm.eq_nil (h0 ▸ (sortStr_perm B).symm))
          have hss : sortStr A = sortStr B := joinSep_inj '|' _ _ hsne hsne'
            (fun c hc => (hA c ((sortStr_perm A).mem_iff.mp hc)).2)
            (fun c hc => (hB c ((sortStr_perm B).mem_iff.mp hc)).2) h
          exact (sortStr_perm A).symm.trans (hss ▸ sortStr_perm B)
    · exact make_items_key_perm
  · intro hA0
    simpa using make_items_key_ne_nil hA0 (fun c hc => (hA c hc).1)

theorem c3_items_key_witness :
    (∀ c ∈ [str "b", str "a"], c ≠ [] ∧ '|' ∉ c) ∧
    (make_items_key [str "b", str "a"] = make_items_key [str "a", str "b"] ↔
      List.Perm [str "b", str "a"] [str "a", str "b"]) :=
  ⟨by decide,
    (c3_items_key [str "b", str "a"] [str "a", str "b"] (by decide) (by decide)).1⟩


lemma foldlM_pres {σ α : Type} (P : σ → Prop) (f : σ → α → Option σ)
    (hf : ∀ s a s', f s a = some s' → P s → P s') :
    ∀ (l : List α) (s s' : σ), l.foldlM f s = some s' → P s → P s' := by
  intro l
  induction l with
  | nil =>
    intro s s' h hP
    simp only [List.foldlM_nil] at h
    cases h
    exact hP
  | cons a l ih =>
    intro s s' h hP
    rw [List.foldlM_cons] at h
    cases hfa : f s a with
    | none => rw [hfa] at h; exact absurd h (by simp)
    | some s1 =>
      rw [hfa] at h
      exact ih s1 s' h (hf s a s1 hfa hP)

lemma tallyOne_inv {K K4 : Type} [DecidableEq K] [DecidableEq K4] (proj : K → K4)
    (pl : Option Int) (st st' : AggSt K K4) (key : K)
    (h : tallyOne proj pl st key = some st') (hinv : countInv proj st) :
    countInv proj st' := by
  unfold tallyOne at h
  by_cases hk : key ∈ st.seen
  · rw [if_pos hk] at h
    cases h
    exact hinv
  · rw [if_neg hk] at h
    cases pl with
    | none => exact absurd h (by simp)
    | some p =>
      simp only [Option.some.injEq] at h
      subst h
      intro k4
      simp only
      rw [Finset.filter_insert]
      by_cases hp : proj key = k4
      · have hk4 : k4 = proj key := hp.symm
        rw [if_pos hk4, if_pos hp, Finset.card_insert_of_not_mem
          (fun hm => hk (Finset.mem_of_mem_filter key hm)), hinv k4]
      · rw [if_neg (fun hh : k4 = proj key => hp hh.symm), if_neg hp, hinv k4]

lemma tallyFold_inv {K K4 : Type} [DecidableEq K] [DecidableEq K4] (proj : K → K4)
    (pl : Option Int) (keys : List K) (st st' : AggSt K K4)
    (h : tallyFold proj pl st keys = some st') (hinv : countInv proj st) :
    countInv proj st' :=
  foldlM_pres (countInv proj) (tallyOne proj pl)
    (fun s a s' hs hP => tallyOne_inv proj pl s s' a hs hP) keys st st' h hinv

lemma item1Row_inv (st st' : AggSt K1full K1stat) (r : LRow)
    (h : item1Row st r = some st') (hinv : countInv proj1 st) :
    countInv proj1 st' := by
  unfold item1Row at h
  split at h
  · cases h; exact hinv
  · dsimp only at h
    split at h
    · cases h; exact hinv
    · exact tallyFold_inv proj1 r.placement _ st st' h hinv

lemma item2Row_inv (st st' : AggSt K2full K2stat) (r : LRow)
    (h : item2Row st r = some st') (hinv : countInv proj2 st) :
    countInv proj2 st' := by
  unfold item2Row at h
  split at h
  · cases h; exact hinv
  · split at h
    · cases h; exact hinv
    · dsimp only at h
      split at h
      · cases h; exact hinv
      · exact tallyFold_inv proj2 _ _ st st' h hinv

lemma item3Row_inv (st st' : AggSt K3full K3stat) (r : LRow)
    (h : item3Row st r = some st') (hinv : countInv proj3 st) :
    countInv proj3 st' := by
  unfold item3Row at h
  split at h
  · cases h; exact hinv
  · dsimp only at h
    split at h
    · cases h; exact hinv
    · exact tallyFold_inv proj3 r.placement _ st st' h hinv

lemma initAgg_inv {K K4 : Type} [DecidableEq K] [DecidableEq K4] (proj : K → K4) :
    countInv proj (initAgg K K4) := by
  intro k4
  simp [initAgg]

lemma item1Run_inv (rows : List LRow) (st' : AggSt K1full K1stat)
    (h : item1Run rows = some st') : countInv proj1 st' :=
  foldlM_pres (countInv proj1) item1Row (fun s a s' => item1Row_inv s s' a) rows _ st' h (initAgg_inv proj1)

lemma item2Run_inv (rows : List LRow) (st' : AggSt K2full K2stat)
    (h : item2Run rows = some st') : countInv proj2 st' :=
  foldlM_pres (countInv proj2) item2Row (fun s a s' => item2Row_inv s s' a) rows _ st' h (initAgg_inv proj2)

lemma item3Run_inv (rows : List LRow) (st' : AggSt K3full K3stat)
    (h : item3Run rows = some st') : countInv proj3 st' :=
  foldlM_pres (countInv proj3) item3Row (fun s a s' => item3Row_inv s s' a) rows _ st' h (initAgg_inv proj3)


lemma item1_seen_AAB :
    (item1Run [rowAAB]).map (fun st => (st.seen.card,
      decide ((str "P", some (str "C"), str "M", str "U", str "ItemA") ∈ st.seen),
      decide ((str "P", some (str "C"), str "M", str "U", str "ItemB") ∈ st.seen)))
      = some (2, true, true) := by decide

lemma item2_seen_AAB :
    (item2Run [rowAAB]).map (fun st => (st.seen.card,
      decide ((str "P", some (str "C"), str "M", str "U", str "ItemA", str "ItemA")
        ∈ st.seen),
      decide ((str "P", some (str "C"), str "M", str "U", str "ItemA", str "ItemB")
        ∈ st.seen))) = some (2, true, true) := by decide

lemma item3_seen_AAB :
    (item3Run [rowAAB]).map (fun st => (st.seen.card,
      decide ((str "P", some (str "C"), str "M", str "U", str "ItemA", str "ItemA",
        str "ItemB") ∈ st.seen))) = some (1, true) := by decide

lemma seen_eq_pair {K : Type} [DecidableEq K] (S : Finset K) (k1 k2 : K)
    (hne : k1 ≠ k2) (hc : S.card = 2) (h1 : k1 ∈ S) (h2 : k2 ∈ S) :
    S = {k1, k2} := by
  have hsub : ({k1, k2} : Finset K) ⊆ S := by
    intro x hx
    rw [Finset.mem_insert, Finset.mem_singleton] at hx
    rcases hx with rfl | rfl <;> assumption
  have hcard : S.card ≤ ({k1, k2} : Finset K).card := by
    rw [Finset.card_insert_of_not_mem (by simpa using hne), Finset.card_singleton, hc]
  exact (Finset.eq_of_subset_of_card_le hsub hcard).symm

lemma seen_eq_singleton {K : Type} [DecidableEq K] (S : Finset K) (k1 : K)
    (hc : S.card = 1) (h1 : k1 ∈ S) : S = {k1} := by
  have hsub : ({k1} : Finset K) ⊆ S := by
    intro x hx
    rw [Finset.mem_singleton] at hx
    subst hx; assumption
  have hcard : S.card ≤ ({k1} : Finset K).card := by
    rw [Finset.card_singleton, hc]
  exact (Finset.eq_of_subset_of_card_le hsub hcard).symm

/-- C2: (i) in every aggregator run the count of a stats key equals the
number of distinct full game keys recorded for it in the dedup set, so no
combination is ever counted more than once for the same
`(patch, champion, match, participant)`; (ii) on a unit whose completed
items are `[A, A, B]` the runs count exactly one game for the k = 1
combinations `{A}` and `{B}`, the k = 2 combinations `(A, A)` and
`(A, B)`, and the k = 3 combination `(A, A, B)`; (iii) every combination
with a nonzero count on that input is one of those. -/
theorem c2_combination_counting :
    (∀ rows st', item1Run rows = some st' →
      ∀ k, st'.count k = (st'.seen.filter fun kf => proj1 kf = k).card) ∧
    (∀ rows st', item2Run rows = some st' →
      ∀ k, st'.count k = (st'.seen.filter fun kf => proj2 kf = k).card) ∧
    (∀ rows st', item3Run rows = some st' →
      ∀ k, st'.count k = (st'.seen.filter fun kf => proj3 kf = k).card) ∧
    ((item1Run [rowAAB]).map (fun st =>
        (st.count (str "P", some (str "C"), str "ItemA"),
         st.count (str "P", some (str "C"), str "ItemB"))) = some (1, 1)) ∧
    ((item2Run [rowAAB]).map (fun st =>
        (st.count (str "P", some (str "C"), str "ItemA", str "ItemA"),
         st.count (str "P", some (str "C"), str "ItemA", str "ItemB"))) = some (1, 1)) ∧
    ((item3Run [rowAAB]).map (fun st =>
        st.count (str "P", some (str "C"), str "ItemA", str "ItemA", str "ItemB"))
      = some 1) ∧
    (∀ st' it, item1Run [rowAAB] = some st' →
      st'.count (str "P", some (str "C"), it) ≠ 0 →
      it = str "ItemA" ∨ it = str "ItemB") ∧
    (∀ st' a b, item2Run [rowAAB] = some st' →
      st'.count (str "P", some (str "C"), a, b) ≠ 0 →
      (a = str "ItemA" ∧ b = str "ItemA") ∨ (a = str "ItemA" ∧ b = str "ItemB")) ∧
    (∀ st' a b c, item3Run [rowAAB] = some st' →
      st'.count (str "P", some (str "C"), a, b, c) ≠ 0 →
      a = str "ItemA" ∧ b = str "ItemA" ∧ c = str "ItemB") := by
  refine ⟨fun rows st' h => item1Run_inv rows st' h,
    fun rows st' h => item2Run_inv rows st' h,
    fun rows st' h => item3Run_inv rows st' h,
    by decide, by decide, by decide, ?_, ?_, ?_⟩
  · intro st' it hrun hne
    have hinv := item1Run_inv [rowAAB] st' hrun
    have h := item1_seen_AAB
    rw [hrun] at h
    simp only [Option.map_some', Option.some.injEq, Prod.mk.injEq] at h
    have hS := seen_eq_pair st'.seen _ _ (by decide) h.1
      (of_decide_eq_true h.2.1) (of_decide_eq_true h.2.2)
    rw [hinv _, hS] at hne
    obtain ⟨k, hk⟩ := Finset.card_ne_zero.mp hne
    rw [Finset.mem_filter, Finset.mem_insert, Finset.mem_singleton] at hk
    rcases hk.1 with rfl | rfl
    · have hp := hk.2
      simp only [proj1, Prod.mk.injEq] at hp
      exact Or.inl hp.2.2.symm
    · have hp := hk.2
      simp only [proj1, Prod.mk.injEq] at hp
      exact Or.inr hp.2.2.symm
  · intro st' a b hrun hne
    have hinv := item2Run_inv [rowAAB] st' hrun
    have h := item2_seen_AAB
    rw [hrun] at h
    simp only [Option.map_some', Option.some.injEq, Prod.mk.injEq] at h
    have hS := seen_eq_pair st'.seen _ _ (by decide) h.1
      (of_decide_eq_true h.2.1) (of_decide_eq_true h.2.2)
    rw [hinv _, hS] at hne
    obtain ⟨k, hk⟩ := Finset.card_ne_zero.mp hne
    rw [Finset.mem_filter, Finset.mem_insert, Finset.mem_singleton] at hk
    rcases hk.1 with rfl | rfl
    · have hp := hk.2
      simp only [proj2, Prod.mk.injEq] at hp
      exact Or.inl ⟨hp.2.2.1.symm, hp.2.2.2.symm⟩
    · have hp := hk.2
      simp only [proj2, Prod.mk.injEq] at hp
      exact Or.inr ⟨hp.2.2.1.symm, hp.2.2.2.symm⟩
  · intro st' a b c hrun hne
    have hinv := item3Run_inv [rowAAB] st' hrun
    have h := item3_seen_AAB
    rw [hrun] at h
    simp only [Option.map_some', Option.some.injEq, Prod.mk.injEq] at h
    have hS := seen_eq_singleton st'.seen _ h.1 (of_decide_eq_true h.2)
    rw [hinv _, hS] at hne
    obtain ⟨k, hk⟩ := Finset.card_ne_zero.mp hne
    rw [Finset.mem_filter, Finset.mem_singleton] at hk
    rcases hk.1 with rfl
    have hp := hk.2
    simp only [proj3, Prod.mk.injEq] at hp
    exact ⟨hp.2.2.1.symm, hp.2.2.2.1.symm, hp.2.2.2.2.symm⟩

theorem c2_combination_counting_witness :
    (item2Run [rowAAB]).map
        (fun st' => st'.count (str "P", some (str "C"), str "ItemA", str "ItemA")) =
      (item2Run [rowAAB]).map
        (fun st' => (st'.seen.filter fun kf =>
          proj2 kf = (str "P", some (str "C"), str "ItemA", str "ItemA")).card) := by
  cases hrun : item2Run [rowAAB] with
  | none => rfl
  | some st' =>
    exact congrArg some (c2_combination_counting.2.1 [rowAAB] st' hrun _)

lemma unitsFold_pm (mid pu : Str) (units : List RawUnit) :
    ∀ s : Store, (units.foldl (ingestUnit mid pu) s).player_match = s.player_match := by
  induction units with
  | nil => intro s; rfl
  | cons u us ih => intro s; rw [List.foldl_cons]; exact ih _

lemma unitsFold_matches (mid pu : Str) (units : List RawUnit) :
    ∀ s : Store, (units.foldl (ingestUnit mid pu) s).«matches» = s.«matches» := by
  induction units with
  | nil => intro s; rfl
  | cons u us ih => intro s; rw [List.foldl_cons]; exact ih _

lemma partsFold_matches (mid : Str) (ps : List RawParticipant) :
    ∀ s : Store, (ps.foldl (ingestParticipant mid) s).«matches» = s.«matches» := by
  induction ps with
  | nil => intro s; rfl
  | cons p ps ih =>
    intro s
    rw [List.foldl_cons]
    exact (ih _).trans (unitsFold_matches mid p.puuid p.units _)

lemma ingest_matches (s : Store) (m : RawMatch) :
    (ingest_one_match s m).«matches» = insertMatches s.«matches» (matchRowOf m) := by
  unfold ingest_one_match
  exact partsFold_matches _ _ _

lemma partsFold_pm (mid : Str) (ps : List RawParticipant) :
    ∀ s : Store, (ps.foldl (ingestParticipant mid) s).player_match =
      (ps.map (pmRowOf mid)).foldl insertPM s.player_match := by
  induction ps with
  | nil => intro s; rfl
  | cons p ps ih =>
    intro s
    rw [List.foldl_cons, List.map_cons, List.foldl_cons, ih _]
    congr 1
    exact unitsFold_pm mid p.puuid p.units _

lemma ingest_pm (s : Store) (m : RawMatch) :
    (ingest_one_match s m).player_match =
      (pmRowsOf m).foldl insertPM s.player_match := by
  unfold ingest_one_match pmRowsOf
  exact partsFold_pm _ _ _

lemma unitsFold_ul (mid pu : Str) (units : List RawUnit) :
    ∀ s : Store, (units.foldl (ingestUnit mid pu) s).unit_loadout =
      (units.map (ulRowOf mid pu)).foldl insertUL s.unit_loadout := by
  induction units with
  | nil => intro s; rfl
  | cons u us ih =>
    intro s
    rw [List.foldl_cons, List.map_cons, List.foldl_cons]
    exact ih _

lemma partsFold_ul (mid : Str) (ps : List RawParticipant) :
    ∀ s : Store, (ps.foldl (ingestParticipant mid) s).unit_loadout =
      (ps.flatMap fun p => p.units.map (ulRowOf mid p.puuid)).foldl insertUL
        s.unit_loadout := by
  induction ps with
  | nil => intro s; rfl
  | cons p ps ih =>
    intro s
    rw [List.foldl_cons, List.flatMap_cons, List.foldl_append, ih _]
    congr 1
    exact unitsFold_ul mid p.puuid p.units _

lemma ingest_ul (s : Store) (m : RawMatch) :
    (ingest_one_match s m).unit_loadout =
      (ulRowsOf m).foldl insertUL s.unit_loadout := by
  unfold ingest_one_match ulRowsOf
  exact partsFold_ul _ _ _

lemma unitsFold_ui (mid pu : Str) (units : List RawUnit) :
    ∀ s : Store, (units.foldl (ingestUnit mid pu) s).unit_item =
      s.unit_item ++ units.flatMap (uiRowsOf mid pu) := by
  induction units with
  | nil => intro s; simp
  | cons u us ih =>
    intro s
    rw [List.foldl_cons, List.flatMap_cons, ih _]
    simp [ingestUnit, List.append_assoc]

lemma partsFold_ui (mid : Str) (ps : List RawParticipant) :
    ∀ s : Store, (ps.foldl (ingestParticipant mid) s).unit_item =
      s.unit_item ++ (ps.flatMap fun p => p.units.flatMap (uiRowsOf mid p.puuid)) := by
  induction ps with
  | nil => intro s; simp
  | cons p ps ih =>
    intro s
    rw [List.foldl_cons, List.flatMap_cons, ih _]
    rw [show (ingestParticipant mid s p).unit_item =
      s.unit_item ++ p.units.flatMap (uiRowsOf mid p.puuid) from
      unitsFold_ui mid p.puuid p.units _]
    simp [List.append_assoc]

lemma ingest_ui (s : Store) (m : RawMatch) :
    (ingest_one_match s m).unit_item = s.unit_item ++ itemRowsOf m := by
  unfold ingest_one_match itemRowsOf
  exact partsFold_ui _ _ _

lemma nullEq_trans {α : Type} [DecidableEq α] {a b c : Option α}
    (h1 : nullEq a b) (h2 : nullEq b c) : nullEq a c := by
  cases a <;> cases b <;> cases c <;> simp_all [nullEq]

lemma nullEq_symm {α : Type} [DecidableEq α] {a b : Option α}
    (h : nullEq a b) : nullEq b a := by
  cases a <;> cases b <;> simp_all [nullEq]

lemma nullEq_refl_of_isSome {α : Type} [DecidableEq α] {a : Option α}
    (h : a.isSome = true) : nullEq a a := by
  cases a with
  | none => cases h
  | some x => simp [nullEq]

lemma ulConflict_symm {a b : UnitLoadoutRow} (h : ulConflict a b) :
    ulConflict b a :=
  ⟨h.1.symm, h.2.1.symm, nullEq_symm h.2.2.1, nullEq_symm h.2.2.2.1, h.2.2.2.2.symm⟩

lemma ulConflict_trans {a b c : UnitLoadoutRow} (h1 : ulConflict a b)
    (h2 : ulConflict b c) : ulConflict a c :=
  ⟨h1.1.trans h2.1, h1.2.1.trans h2.2.1, nullEq_trans h1.2.2.1 h2.2.2.1,
   nullEq_trans h1.2.2.2.1 h2.2.2.2.1, h1.2.2.2.2.trans h2.2.2.2.2⟩

lemma ulConflict_refl_of {r : UnitLoadoutRow} (hc : r.champion_id.isSome = true)
    (ht : r.unit_tier.isSome = true) : ulConflict r r :=
  ⟨rfl, rfl, nullEq_refl_of_isSome hc, nullEq_refl_of_isSome ht, rfl⟩

lemma mem_insertUL {tbl : List UnitLoadoutRow} {x r : UnitLoadoutRow}
    (h : x ∈ tbl) : x ∈ insertUL tbl r := by
  unfold insertUL
  split
  · exact h
  · exact List.mem_append_left _ h

lemma mem_foldl_insertUL {tbl : List UnitLoadoutRow} {x : UnitLoadoutRow}
    (rows : List UnitLoadoutRow) (h : x ∈ tbl) :
    x ∈ rows.foldl insertUL tbl := by
  induction rows generalizing tbl with
  | nil => exact h
  | cons r rs ih => exact ih (mem_insertUL h)

/-- After the loadout fold, every inserted row with non-null key columns
has a conflicting row present in the table. -/
lemma present_after_foldl_insertUL (rows : List UnitLoadoutRow) :
    ∀ (tbl : List UnitLoadoutRow) (r : UnitLoadoutRow), r ∈ rows →
      r.champion_id.isSome = true → r.unit_tier.isSome = true →
      ∃ r' ∈ rows.foldl insertUL tbl, ulConflict r' r := by
  induction rows with
  | nil => intro tbl r h; cases h
  | cons r0 rs ih =>
    intro tbl r hr hc ht
    rw [List.foldl_cons]
    rcases List.mem_cons.mp hr with rfl | hmem
    · by_cases hconf : ∃ r' ∈ tbl, ulConflict r' r
      · obtain ⟨r', hr', hcf⟩ := hconf
        exact ⟨r', mem_foldl_insertUL rs (mem_insertUL hr'), hcf⟩
      · have hself : r ∈ insertUL tbl r := by
          unfold insertUL
          rw [if_neg hconf]
          exact List.mem_append_right _ (List.mem_singleton_self r)
        exact ⟨r, mem_foldl_insertUL rs hself, ulConflict_refl_of hc ht⟩
    · exact ih _ r hmem hc ht

lemma foldl_insertUL_noop (rows : List UnitLoadoutRow) :
    ∀ (tbl : List UnitLoadoutRow),
      (∀ r ∈ rows, ∃ r' ∈ tbl, ulConflict r' r) →
      rows.foldl insertUL tbl = tbl := by
  induction rows with
  | nil => intro tbl _; rfl
  | cons r0 rs ih =>
    intro tbl h
    rw [List.foldl_cons]
    have h0 : insertUL tbl r0 = tbl := by
      unfold insertUL
      rw [if_pos (h r0 (List.mem_cons_self _ _))]
    rw [h0]
    exact ih tbl fun r hr => h r (List.mem_cons_of_mem _ hr)

lemma mem_insertPM {tbl : List PlayerMatchRow} {x r : PlayerMatchRow}
    (h : x ∈ tbl) : x ∈ insertPM tbl r := by
  unfold insertPM
  split
  · exact h
  · exact List.mem_append_left _ h

lemma mem_foldl_insertPM {tbl : List PlayerMatchRow} {x : PlayerMatchRow}
    (rows : List PlayerMatchRow) (h : x ∈ tbl) :
    x ∈ rows.foldl insertPM tbl := by
  induction rows generalizing tbl with
  | nil => exact h
  | cons r rs ih => exact ih (mem_insertPM h)

lemma present_after_foldl_insertPM (rows : List PlayerMatchRow) :
    ∀ (tbl : List PlayerMatchRow) (r : PlayerMatchRow), r ∈ rows →
      ∃ r' ∈ rows.foldl insertPM tbl,
        r'.match_id = r.match_id ∧ r'.puuid = r.puuid := by
  induction rows with
  | nil => intro tbl r h; cases h
  | cons r0 rs ih =>
    intro tbl r hr
    rw [List.foldl_cons]
    rcases List.mem_cons.mp hr with rfl | hmem
    · by_cases hconf : ∃ r' ∈ tbl, r'.match_id = r.match_id ∧ r'.puuid = r.puuid
      · obtain ⟨r', hr', hcf⟩ := hconf
        exact ⟨r', mem_foldl_insertPM rs (mem_insertPM hr'), hcf⟩
      · have hself : r ∈ insertPM tbl r := by
          unfold insertPM
          rw [if_neg hconf]
          exact List.mem_append_right _ (List.mem_singleton_self r)
        exact ⟨r, mem_foldl_insertPM rs hself, rfl, rfl⟩
    · exact ih _ r hmem

lemma foldl_insertPM_noop (rows : List PlayerMatchRow) :
    ∀ (tbl : List PlayerMatchRow),
      (∀ r ∈ rows, ∃ r' ∈ tbl, r'.match_id = r.match_id ∧ r'.puuid = r.puuid) →
      rows.foldl insertPM tbl = tbl := by
  induction rows with
  | nil => intro tbl _; rfl
  | cons r0 rs ih =>
    intro tbl h
    rw [List.foldl_cons]
    have h0 : insertPM tbl r0 = tbl := by
      unfold insertPM
      rw [if_pos (h r0 (List.mem_cons_self _ _))]
    rw [h0]
    exact ih tbl fun r hr => h r (List.mem_cons_of_mem _ hr)

lemma insertMatches_twice (tbl : List MatchRow) (r : MatchRow) :
    insertMatches (insertMatches tbl r) r = insertMatches tbl r := by
  unfold insertMatches
  by_cases h : ∃ r' ∈ tbl, r'.match_id = r.match_id
  · rw [if_pos h, if_pos h]
  · rw [if_neg h, if_pos ⟨r, List.mem_append_right _ (List.mem_singleton_self r), rfl⟩]

lemma countUL_ne_zero_iff (tbl : List UnitLoadoutRow) (key : UnitLoadoutRow) :
    countUL tbl key ≠ 0 ↔ ∃ r' ∈ tbl, ulConflict r' key := by
  unfold countUL
  rw [Ne, List.countP_eq_zero]
  push_neg
  simp only [decide_eq_true_eq]

lemma countUL_insert_pos (tbl : List UnitLoadoutRow) (r key : UnitLoadoutRow)
    (h : countUL tbl key ≠ 0) : countUL (insertUL tbl r) key = countUL tbl key := by
  unfold insertUL
  split
  · rfl
  · rename_i hnc
    have hnck : ¬ ulConflict r key := by
      intro hck
      obtain ⟨r', hm, hcf⟩ := (countUL_ne_zero_iff tbl key).mp h
      exact hnc ⟨r', hm, ulConflict_trans hcf (ulConflict_symm hck)⟩
    unfold countUL
    rw [List.countP_append, List.countP_cons, List.countP_nil]
    simp [hnck]

lemma countUL_insert_zero_of_conflict (tbl : List UnitLoadoutRow)
    (r key : UnitLoadoutRow) (h0 : countUL tbl key = 0) (hc : ulConflict r key) :
    countUL (insertUL tbl r) key = 1 := by
  have hnc : ¬ ∃ r' ∈ tbl, ulConflict r' r := by
    rintro ⟨r', hm, hcf⟩
    exact (countUL_ne_zero_iff tbl key).mpr ⟨r', hm, ulConflict_trans hcf hc⟩ h0
  unfold insertUL
  rw [if_neg hnc]
  unfold countUL at h0 ⊢
  rw [List.countP_append, h0, List.countP_cons, List.countP_nil]
  simp [hc]

lemma countUL_insert_zero_of_not (tbl : List UnitLoadoutRow)
    (r key : UnitLoadoutRow) (h0 : countUL tbl key = 0) (hnc : ¬ ulConflict r key) :
    countUL (insertUL tbl r) key = 0 := by
  unfold insertUL
  split
  · exact h0
  · unfold countUL at h0 ⊢
    rw [List.countP_append, h0, List.countP_cons, List.countP_nil]
    simp [hnc]

lemma countUL_foldl_pos (rows : List UnitLoadoutRow) :
    ∀ (tbl : List UnitLoadoutRow) (key : UnitLoadoutRow), countUL tbl key ≠ 0 →
      countUL (rows.foldl insertUL tbl) key = countUL tbl key := by
  induction rows with
  | nil => intro tbl key _; rfl
  | cons r0 rs ih =>
    intro tbl key h
    rw [List.foldl_cons, ih _ key (by rw [countUL_insert_pos tbl r0 key h]; exact h),
      countUL_insert_pos tbl r0 key h]

lemma countUL_foldl_zero (rows : List UnitLoadoutRow) :
    ∀ (tbl : List UnitLoadoutRow) (key : UnitLoadoutRow), countUL tbl key = 0 →
      (∃ r ∈ rows, ulConflict r key) →
      countUL (rows.foldl insertUL tbl) key = 1 := by
  induction rows with
  | nil => rintro tbl key _ ⟨r, hr, _⟩; cases hr
  | cons r0 rs ih =>
    intro tbl key h0 hex
    rw [List.foldl_cons]
    by_cases hc0 : ulConflict r0 key
    · have h1 := countUL_insert_zero_of_conflict tbl r0 key h0 hc0
      rw [countUL_foldl_pos rs _ key (by rw [h1]; exact one_ne_zero), h1]
    · obtain ⟨r, hr, hcr⟩ := hex
      rcases List.mem_cons.mp hr with rfl | hmem
      · exact absurd hcr hc0
      · exact ih _ key (countUL_insert_zero_of_not tbl r0 key h0 hc0) ⟨r, hmem, hcr⟩

lemma mem_ulRowsOf {m : RawMatch} {p : RawParticipant} {u : RawUnit}
    (hp : p ∈ m.info.participants) (hu : u ∈ p.units) :
    ulRowOf m.match_id p.puuid u ∈ ulRowsOf m := by
  unfold ulRowsOf
  rw [List.mem_flatMap]
  exact ⟨p, hp, List.mem_map_of_mem _ hu⟩

/-- C1: as stated over all four tables the idempotence claim is false:
`unit_item` rows are written with a plain `INSERT` (no IGNORE, no primary
key), so re-ingesting the same record duplicates them and the stores
differ. -/
theorem c1_counterexample :
    ingest_one_match (ingest_one_match emptyStore exMatch) exMatch ≠
      ingest_one_match emptyStore exMatch := by decide

/-- C1 (amended): re-ingesting the same raw record is idempotent on
`matches` and `player_match` unconditionally, and on `unit_loadout`
whenever every unit carries a champion id and a tier (a NULL in those
primary-key columns never conflicts under SQLite semantics); the
`unit_item` table instead receives a second copy of all item-level rows. -/
theorem c1_reingest (s : Store) (m : RawMatch) :
    ((ingest_one_match (ingest_one_match s m) m).«matches» =
      (ingest_one_match s m).«matches») ∧
    ((ingest_one_match (ingest_one_match s m) m).player_match =
      (ingest_one_match s m).player_match) ∧
    ((∀ p ∈ m.info.participants, ∀ u ∈ p.units,
        u.character_id.isSome = true ∧ u.tier.isSome = true) →
      (ingest_one_match (ingest_one_match s m) m).unit_loadout =
        (ingest_one_match s m).unit_loadout) ∧
    ((ingest_one_match (ingest_one_match s m) m).unit_item =
      (ingest_one_match s m).unit_item ++ itemRowsOf m) := by
  refine ⟨?_, ?_, ?_, ?_⟩
  · rw [ingest_matches (ingest_one_match s m) m, ingest_matches s m,
      insertMatches_twice]
  · rw [ingest_pm (ingest_one_match s m) m]
    apply foldl_insertPM_noop
    intro r hr
    rw [ingest_pm s m]
    obtain ⟨r', hm', hk⟩ := present_after_foldl_insertPM (pmRowsOf m)
      s.player_match r hr
    exact ⟨r', hm', hk⟩
  · intro hnn
    rw [ingest_ul (ingest_one_match s m) m]
    apply foldl_insertUL_noop
    intro r hr
    rw [ingest_ul s m]
    have hval : r.champion_id.isSome = true ∧ r.unit_tier.isSome = true := by
      unfold ulRowsOf at hr
      rw [List.mem_flatMap] at hr
      obtain ⟨p, hp, hr2⟩ := hr
      rw [List.mem_map] at hr2
      obtain ⟨u, hu, rfl⟩ := hr2
      exact hnn p hp u hu
    exact present_after_foldl_insertUL (ulRowsOf m) s.unit_loadout r hr
      hval.1 hval.2
  · exact ingest_ui (ingest_one_match s m) m

theorem c1_reingest_witness :
    (∀ p ∈ exMatch.info.participants, ∀ u ∈ p.units,
      u.character_id.isSome = true ∧ u.tier.isSome = true) ∧
    (ingest_one_match (ingest_one_match emptyStore exMatch) exMatch).unit_loadout =
      (ingest_one_match emptyStore exMatch).unit_loadout :=
  ⟨by decide, (c1_reingest emptyStore exMatch).2.2.1 (by decide)⟩

/-- C6: the batch loop of `build_db.main` has no per-file exception
handler, so a bad file does not merely skip one record: the batch aborts
there and the well-formed record that follows is never ingested. -/
theorem c6_counterexample :
    processBatch emptyStore [none, some exMatch] = Except.error emptyStore ∧
    ingest_one_match emptyStore exMatch ≠ emptyStore := by
  exact ⟨rfl, by decide⟩

/-- C6 (amended): an all-good batch ingests every file in order, while a
batch containing a bad file (parse failure or missing required key)
raises at that file: the files before it stay ingested and everything
from the bad file on — including well-formed files — is not processed. -/
theorem c6_batch_abort (s : Store) (good : List RawMatch)
    (rest : List (Option RawMatch)) :
    processBatch s (good.map some) = Except.ok (good.foldl ingest_one_match s) ∧
    processBatch s (good.map some ++ none :: rest) =
      Except.error (good.foldl ingest_one_match s) := by
  induction good generalizing s with
  | nil => exact ⟨rfl, rfl⟩
  | cons mm ms ih =>
    simp only [List.map_cons, List.cons_append, List.foldl_cons]
    exact ⟨(ih (ingest_one_match s mm)).1, (ih (ingest_one_match s mm)).2⟩

/-- C10: two units of one participant with the same champion id, the same
tier and the same item multiset produce primary-key-conflicting
`unit_loadout` rows (the canonical key is permutation-invariant), and
ingesting the match into a store that does not yet hold that key leaves
exactly one matching row — one row for all duplicate units. -/
theorem c10_duplicate_collapse (s : Store) (m : RawMatch) (p : RawParticipant)
    (u1 u2 : RawUnit)
    (hp : p ∈ m.info.participants) (h1 : u1 ∈ p.units) (h2 : u2 ∈ p.units)
    (hc1 : u1.character_id.isSome = true) (ht1 : u1.tier.isSome = true)
    (hcc : u2.character_id = u1.character_id) (htt : u2.tier = u1.tier)
    (hperm : u2.itemNames.Perm u1.itemNames)
    (habs : countUL s.unit_loadout (ulRowOf m.match_id p.puuid u1) = 0) :
    ulConflict (ulRowOf m.match_id p.puuid u2) (ulRowOf m.match_id p.puuid u1) ∧
    countUL (ingest_one_match s m).unit_loadout (ulRowOf m.match_id p.puuid u1)
      = 1 := by
  constructor
  · refine ⟨rfl, rfl, ?_, ?_, ?_⟩
    · rw [show (ulRowOf m.match_id p.puuid u2).champion_id = u2.character_id from rfl,
        show (ulRowOf m.match_id p.puuid u1).champion_id = u1.character_id from rfl,
        hcc]
      exact nullEq_refl_of_isSome hc1
    · rw [show (ulRowOf m.match_id p.puuid u2).unit_tier = u2.tier from rfl,
        show (ulRowOf m.match_id p.puuid u1).unit_tier = u1.tier from rfl, htt]
      exact nullEq_refl_of_isSome ht1
    · exact make_items_key_perm hperm
  · rw [ingest_ul s m]
    exact countUL_foldl_zero (ulRowsOf m) s.unit_loadout _ habs
      ⟨ulRowOf m.match_id p.puuid u1, mem_ulRowsOf hp h1,
        ulConflict_refl_of hc1 ht1⟩

theorem c10_duplicate_collapse_witness :
    countUL (ingest_one_match emptyStore exMatchDup).unit_loadout
      (ulRowOf (str "M") (str "U")
        ⟨some (str "C"), some 2, [str "ItemA", str "ItemB"]⟩) = 1 :=
  (c10_duplicate_collapse emptyStore exMatchDup
    ⟨str "U", some 1, none, none,
      [⟨some (str "C"), some 2, [str "ItemA", str "ItemB"]⟩,
       ⟨some (str "C"), some 2, [str "ItemB", str "ItemA"]⟩]⟩
    ⟨some (str "C"), some 2, [str "ItemA", str "ItemB"]⟩
    ⟨some (str "C"), some 2, [str "ItemB", str "ItemA"]⟩
    (by decide) (by decide) (by decide) rfl rfl rfl rfl
    (by decide) (by decide)).2

lemma flatMap_congr_fun {α β : Type} {f g : α → List β} (l : List α)
    (h : ∀ a, f a = g a) : l.flatMap f = l.flatMap g := by
  induction l with
  | nil => rfl
  | cons x xs ih => rw [List.flatMap_cons, List.flatMap_cons, h x, ih]

lemma filterMap_filter_of_none {α β : Type} (f : α → Option β) (q : α → Bool)
    (hf : ∀ x, q x = false → f x = none) (l : List α) :
    (l.filter q).filterMap f = l.filterMap f := by
  induction l with
  | nil => rfl
  | cons x xs ih =>
    by_cases hq : q x = true
    · rw [List.filter_cons_of_pos hq, List.filterMap_cons, List.filterMap_cons, ih]
    · have hq' : q x = false := by simpa using hq
      rw [List.filter_cons_of_neg (by simp [hq']), List.filterMap_cons, hf x hq', ih]

lemma v_champ_games_filter (s : Store) :
    v_champ_games
      { s with «matches» := s.«matches».filter fun mr => mr.patch_bucket.isSome } =
      v_champ_games s := by
  unfold v_champ_games
  congr 1
  apply flatMap_congr_fun
  intro ul
  apply filterMap_filter_of_none
  intro mr hmr
  rcases hpb : mr.patch_bucket with _ | pb
  · simp [hpb]
  · rw [hpb] at hmr
    simp at hmr

lemma champPairs_filter (s : Store) (p : Str) (c : Option Str) :
    champPairs
      { s with «matches» := s.«matches».filter fun mr => mr.patch_bucket.isSome }
      p c = champPairs s p c := by
  unfold champPairs
  rw [v_champ_games_filter]

lemma pm_row_of_map_singleton {s : Store} {mp : Str × Str} {v : Int}
    (h : (pmRowsFor s mp).map PlayerMatchRow.placement = [some v]) :
    ∃ r, pmRowsFor s mp = [r] ∧ r.placement = some v := by
  rcases hrows : pmRowsFor s mp with _ | ⟨r, rest⟩
  · rw [hrows] at h
    simp at h
  · rw [hrows] at h
    simp only [List.map_cons, List.cons.injEq] at h
    have hrest : rest = [] := List.map_eq_nil_iff.mp h.2
    exact ⟨r, by rw [hrest], h.1⟩

/-- C8: the per-`(patch, champion)` baseline of the aggregators' temp
views is the arithmetic mean of placements over the *distinct*
`(match, participant)` pairs in which the champion appears — each pair
counts once however many loadout rows it has — and rows of matches whose
patch bucket is NULL contribute to no group. -/
theorem c8_baseline (s : Store) (p : Str) (c : Option Str) (pl : Str × Str → Int)
    (hpm : ∀ mp ∈ champPairs s p c,
      (pmRowsFor s mp).map PlayerMatchRow.placement = [some (pl mp)]) :
    (baseline_n_games s p c = (champPairs s p c).card) ∧
    ((champPairs s p c).Nonempty →
      baseline_avg_place s p c =
        some ((Finset.sum (champPairs s p c) fun mp => (pl mp : ℚ)) /
          ((champPairs s p c).card : ℚ))) ∧
    (baseline_avg_place
      { s with «matches» := s.«matches».filter fun mr => mr.patch_bucket.isSome }
      p c = baseline_avg_place s p c) := by
  have hlen : ∀ mp ∈ champPairs s p c, (pmRowsFor s mp).length = 1 := by
    intro mp hmp
    obtain ⟨r, hrows, _⟩ := pm_row_of_map_singleton (hpm mp hmp)
    rw [hrows]
    rfl
  have hfm : ∀ mp ∈ champPairs s p c,
      (pmRowsFor s mp).filterMap PlayerMatchRow.placement = [pl mp] := by
    intro mp hmp
    obtain ⟨r, hrows, hr⟩ := pm_row_of_map_singleton (hpm mp hmp)
    rw [hrows]
    simp [List.filterMap_cons, hr]
  have hcnt : baselineCnt s p c = (champPairs s p c).card := by
    unfold baselineCnt
    rw [Finset.card_eq_sum_ones]
    exact Finset.sum_congr rfl fun mp hmp => by rw [hfm mp hmp]; rfl
  have hsum : baselineSum s p c = Finset.sum (champPairs s p c) fun mp => pl mp := by
    unfold baselineSum
    exact Finset.sum_congr rfl fun mp hmp => by rw [hfm mp hmp]; simp
  refine ⟨?_, ?_, ?_⟩
  · unfold baseline_n_games
    rw [Finset.card_eq_sum_ones]
    exact Finset.sum_congr rfl fun mp hmp => by rw [hlen mp hmp]
  · intro hne
    have hcard : (champPairs s p c).card ≠ 0 := by
      simpa using Finset.card_ne_zero.mpr hne
    unfold baseline_avg_place
    rw [if_neg (by rw [hcnt]; exact hcard), hcnt, hsum]
    congr 1
    push_cast
    rfl
  · unfold baseline_avg_place baselineCnt baselineSum
    rw [champPairs_filter]
    rfl

theorem c8_baseline_witness :
    (∀ mp ∈ champPairs sEx (str "P") (some (str "C")),
      (pmRowsFor sEx mp).map PlayerMatchRow.placement = [some 4]) ∧
    baseline_n_games sEx (str "P") (some (str "C")) =
      (champPairs sEx (str "P") (some (str "C"))).card ∧
    baseline_avg_place sEx (str "P") (some (str "C")) =
      some ((Finset.sum (champPairs sEx (str "P") (some (str "C")))
        fun mp => ((fun _ => (4 : Int)) mp : ℚ)) /
        ((champPairs sEx (str "P") (some (str "C"))).card : ℚ)) :=
  ⟨by decide,
   (c8_baseline sEx (str "P") (some (str "C")) (fun _ => 4) (by decide)).1,
   (c8_baseline sEx (str "P") (some (str "C")) (fun _ => 4) (by decide)).2.1
     (by decide)⟩

lemma processPage_subset (target : Nat) :
    ∀ (ms : List Str) (seen disk : Finset Str),
      seen ⊆ (processPage target seen disk ms).1.1 ∧
      disk ⊆ (processPage target seen disk ms).1.2 := by
  intro ms
  induction ms with
  | nil => intro seen disk; exact ⟨Finset.Subset.refl _, Finset.Subset.refl _⟩
  | cons mid rest ih =>
    intro seen disk
    unfold processPage
    split
    · exact ⟨Finset.Subset.refl _, Finset.Subset.refl _⟩
    · split
      · exact ih seen disk
      · dsimp only
        exact ⟨(Finset.subset_insert _ _).trans (ih _ _).1,
          (Finset.subset_insert _ _).trans (ih _ _).2⟩

lemma processPage_card_le (target : Nat) :
    ∀ (ms : List Str) (seen disk : Finset Str),
      (processPage target seen disk ms).1.1.card ≤ seen.card + ms.length := by
  intro ms
  induction ms with
  | nil => intro seen disk; simp [processPage]
  | cons mid rest ih =>
    intro seen disk
    unfold processPage
    split
    · simp
    · split
      · calc (processPage target seen disk rest).1.1.card
            ≤ seen.card + rest.length := ih seen disk
          _ ≤ seen.card + (mid :: rest).length := by simp
      · dsimp only
        calc (processPage target (insert mid seen) (insert mid disk) rest).1.1.card
            ≤ (insert mid seen).card + rest.length := ih _ _
          _ ≤ seen.card + 1 + rest.length := by
              exact Nat.add_le_add_right (Finset.card_insert_le _ _) _
          _ = seen.card + (mid :: rest).length := by simp [Nat.add_comm,
              Nat.add_assoc, Nat.add_left_comm]

lemma processPage_cons_skip (target : Nat) (m : Str) (rest : List Str)
    (seen disk : Finset Str) (hlt : seen.card < target)
    (hsk : m ∈ seen ∧ m ∈ disk) :
    processPage target seen disk (m :: rest) = processPage target seen disk rest := by
  conv_lhs => unfold processPage
  rw [if_neg (Nat.not_le.mpr hlt), if_pos hsk]

lemma processPage_cons_fetch (target : Nat) (m : Str) (rest : List Str)
    (seen disk : Finset Str) (hlt : seen.card < target)
    (hsk : ¬(m ∈ seen ∧ m ∈ disk)) :
    processPage target seen disk (m :: rest) =
      ((processPage target (insert m seen) (insert m disk) rest).1,
        m :: (processPage target (insert m seen) (insert m disk) rest).2) := by
  conv_lhs => unfold processPage
  rw [if_neg (Nat.not_le.mpr hlt), if_neg hsk]

lemma processPage_absorb_prefix (target : Nat) :
    ∀ (pre post : List Str) (seen disk : Finset Str),
      seen.card < target → (∀ mid ∈ pre, mid ∈ seen ∧ mid ∈ disk) →
      processPage target seen disk (pre ++ post) =
        processPage target seen disk post := by
  intro pre
  induction pre with
  | nil => intro post seen disk _ _; rfl
  | cons m pre' ih =>
    intro post seen disk hlt habs
    rw [List.cons_append,
      processPage_cons_skip target m (pre' ++ post) seen disk hlt
        (habs m (List.mem_cons_self _ _))]
    exact ih post seen disk hlt fun mid hm => habs mid (List.mem_cons_of_mem _ hm)

lemma processPage_mem_after (target : Nat) :
    ∀ (ms : List Str) (seen disk : Finset Str) (mid : Str),
      seen.card + ms.length ≤ target → mid ∈ ms →
      mid ∈ (processPage target seen disk ms).1.1 ∧
        mid ∈ (processPage target seen disk ms).1.2 := by
  intro ms
  induction ms with
  | nil => intro seen disk mid _ h; cases h
  | cons m rest ih =>
    intro seen disk mid hb hm
    have hlt : seen.card < target := by
      simp only [List.length_cons] at hb
      omega
    unfold processPage
    rw [if_neg (Nat.not_le.mpr hlt)]
    rcases List.mem_cons.mp hm with rfl | hmem
    · by_cases hsk : mid ∈ seen ∧ mid ∈ disk
      · rw [if_pos hsk]
        exact ⟨(processPage_subset target rest seen disk).1 hsk.1,
          (processPage_subset target rest seen disk).2 hsk.2⟩
      · rw [if_neg hsk]
        dsimp only
        exact ⟨(processPage_subset target rest _ _).1 (Finset.mem_insert_self _ _),
          (processPage_subset target rest _ _).2 (Finset.mem_insert_self _ _)⟩
    · by_cases hsk : m ∈ seen ∧ m ∈ disk
      · rw [if_pos hsk]
        exact ih seen disk mid (by simp only [List.length_cons] at hb; omega) hmem
      · rw [if_neg hsk]
        dsimp only
        refine ih _ _ mid ?_ hmem
        have := Finset.card_insert_le m seen
        simp only [List.length_cons] at hb
        omega

lemma processPage_log_fresh (target : Nat) :
    ∀ (ms : List Str) (seen disk : Finset Str) (mid : Str),
      mid ∈ (processPage target seen disk ms).2 → ¬(mid ∈ seen ∧ mid ∈ disk) := by
  intro ms
  induction ms with
  | nil => intro seen disk mid h; cases h
  | cons m rest ih =>
    intro seen disk mid h
    unfold processPage at h
    split at h
    · cases h
    · split at h
      · exact ih seen disk mid h
      · rename_i hsk
        dsimp only at h
        rcases List.mem_cons.mp h with rfl | hmem
        · exact hsk
        · intro hc
          exact ih _ _ mid hmem
            ⟨Finset.mem_insert_of_mem hc.1, Finset.mem_insert_of_mem hc.2⟩

lemma processPage_log_mem (target : Nat) :
    ∀ (ms : List Str) (seen disk : Finset Str) (mid : Str),
      mid ∈ (processPage target seen disk ms).2 →
      mid ∈ (processPage target seen disk ms).1.1 ∧
        mid ∈ (processPage target seen disk ms).1.2 := by
  intro ms
  induction ms with
  | nil => intro seen disk mid h; cases h
  | cons m rest ih =>
    intro seen disk mid h
    unfold processPage at h ⊢
    split at h
    · cases h
    · split at h
      · rename_i h1 h2
        rw [if_neg h1, if_pos h2]
        exact ih seen disk mid h
      · rename_i h1 h2
        rw [if_neg h1, if_neg h2]
        dsimp only at h ⊢
        rcases List.mem_cons.mp h with rfl | hmem
        · exact ⟨(processPage_subset target rest _ _).1 (Finset.mem_insert_self _ _),
            (processPage_subset target rest _ _).2 (Finset.mem_insert_self _ _)⟩
        · exact ih _ _ mid hmem

lemma processPage_log_nodup (target : Nat) :
    ∀ (ms : List Str) (seen disk : Finset Str),
      (processPage target seen disk ms).2.Nodup := by
  intro ms
  induction ms with
  | nil => intro seen disk; exact List.nodup_nil
  | cons m rest ih =>
    intro seen disk
    unfold processPage
    split
    · exact List.nodup_nil
    · split
      · exact ih seen disk
      · dsimp only
        rw [List.nodup_cons]
        refine ⟨fun hmem => ?_, ih _ _⟩
        exact processPage_log_fresh target rest _ _ m hmem
          ⟨Finset.mem_insert_self _ _, Finset.mem_insert_self _ _⟩

lemma processPage_complete (target : Nat) :
    ∀ (ms : List Str) (seen disk : Finset Str) (mid : Str),
      seen.card + ms.length ≤ target → mid ∈ ms →
      ¬(mid ∈ seen ∧ mid ∈ disk) →
      mid ∈ (processPage target seen disk ms).2 := by
  intro ms
  induction ms with
  | nil => intro seen disk mid _ h; cases h
  | cons m rest ih =>
    intro seen disk mid hb hm helig
    have hlt : seen.card < target := by
      simp only [List.length_cons] at hb
      omega
    unfold processPage
    rw [if_neg (Nat.not_le.mpr hlt)]
    rcases List.mem_cons.mp hm with rfl | hmem
    · rw [if_neg helig]
      dsimp only
      exact List.mem_cons_self _ _
    · by_cases hsk : m ∈ seen ∧ m ∈ disk
      · rw [if_pos hsk]
        exact ih seen disk mid (by simp only [List.length_cons] at hb; omega)
          hmem helig
      · rw [if_neg hsk]
        dsimp only
        by_cases hmm : mid = m
        · subst hmm
          exact List.mem_cons_self _ _
        · refine List.mem_cons_of_mem _ (ih _ _ mid ?_ hmem ?_)
          · have := Finset.card_insert_le m seen
            simp only [List.length_cons] at hb
            omega
          · intro hc
            exact helig ⟨(Finset.mem_insert.mp hc.1).resolve_left hmm,
              (Finset.mem_insert.mp hc.2).resolve_left hmm⟩

lemma processPage_append (target : Nat) :
    ∀ (ms1 ms2 : List Str) (seen disk : Finset Str),
      seen.card + (ms1.length + ms2.length) ≤ target →
      processPage target seen disk (ms1 ++ ms2) =
        ((processPage target (processPage target seen disk ms1).1.1
            (processPage target seen disk ms1).1.2 ms2).1,
          (processPage target seen disk ms1).2 ++
            (processPage target (processPage target seen disk ms1).1.1
              (processPage target seen disk ms1).1.2 ms2).2) := by
  intro ms1
  induction ms1 with
  | nil => intro ms2 seen disk _; rfl
  | cons m rest ih =>
    intro ms2 seen disk hb
    have hlt : seen.card < target := by
      simp only [List.length_cons] at hb
      omega
    rw [List.cons_append]
    by_cases hsk : m ∈ seen ∧ m ∈ disk
    · rw [processPage_cons_skip target m (rest ++ ms2) seen disk hlt hsk,
        processPage_cons_skip target m rest seen disk hlt hsk]
      exact ih ms2 seen disk (by simp only [List.length_cons] at hb; omega)
    · rw [processPage_cons_fetch target m (rest ++ ms2) seen disk hlt hsk,
        processPage_cons_fetch target m rest seen disk hlt hsk]
      dsimp only
      rw [ih ms2 _ _ (by
        have := Finset.card_insert_le m seen
        simp only [List.length_cons] at hb
        omega)]
      rfl

lemma crawl_step (pages : Nat → Nat → List Str) (numSeeds target fuel idx start : Nat)
    (seen disk : Finset Str) (hcard : seen.card < target) (hidx : idx < numSeeds)
    (hne : pages idx start ≠ []) :
    crawl pages numSeeds target (fuel + 1) idx start seen disk =
      (if 600 ≤ start + 200 then
        ((crawl pages numSeeds target fuel (idx + 1) 0
            (processPage target seen disk (pages idx start)).1.1
            (processPage target seen disk (pages idx start)).1.2).1,
          (processPage target seen disk (pages idx start)).2 ++
            (crawl pages numSeeds target fuel (idx + 1) 0
              (processPage target seen disk (pages idx start)).1.1
              (processPage target seen disk (pages idx start)).1.2).2)
      else
        ((crawl pages numSeeds target fuel idx (start + 200)
            (processPage target seen disk (pages idx start)).1.1
            (processPage target seen disk (pages idx start)).1.2).1,
          (processPage target seen disk (pages idx start)).2 ++
            (crawl pages numSeeds target fuel idx (start + 200)
              (processPage target seen disk (pages idx start)).1.1
              (processPage target seen disk (pages idx start)).1.2).2)) := by
  conv_lhs => unfold crawl
  simp only [if_neg (Nat.not_le.mpr hcard), if_neg (Nat.not_le.mpr hidx), if_neg hne]

lemma crawl_log_fresh (pages : Nat → Nat → List Str) (numSeeds target : Nat) :
    ∀ (fuel idx start : Nat) (seen disk : Finset Str) (mid : Str),
      mid ∈ (crawl pages numSeeds target fuel idx start seen disk).2 →
      ¬(mid ∈ seen ∧ mid ∈ disk) := by
  intro fuel
  induction fuel with
  | zero => intro idx start seen disk mid h; cases h
  | succ f ih =>
    intro idx start seen disk mid h
    unfold crawl at h
    split at h
    · cases h
    · dsimp only at h
      split at h
      · split at h
        · exact ih _ _ _ _ mid h
        · split at h <;> dsimp only at h <;>
            rcases List.mem_append.mp h with hpg | hrec
          · exact processPage_log_fresh target _ seen disk mid hpg
          · intro hc
            exact ih _ _ _ _ mid hrec
              ⟨(processPage_subset target _ seen disk).1 hc.1,
               (processPage_subset target _ seen disk).2 hc.2⟩
          · exact processPage_log_fresh target _ seen disk mid hpg
          · intro hc
            exact ih _ _ _ _ mid hrec
              ⟨(processPage_subset target _ seen disk).1 hc.1,
               (processPage_subset target _ seen disk).2 hc.2⟩
      · split at h
        · exact ih _ _ _ _ mid h
        · split at h <;> dsimp only at h <;>
            rcases List.mem_append.mp h with hpg | hrec
          · exact processPage_log_fresh target _ seen disk mid hpg
          · intro hc
            exact ih _ _ _ _ mid hrec
              ⟨(processPage_subset target _ seen disk).1 hc.1,
               (processPage_subset target _ seen disk).2 hc.2⟩
          · exact processPage_log_fresh target _ seen disk mid hpg
          · intro hc
            exact ih _ _ _ _ mid hrec
              ⟨(processPage_subset target _ seen disk).1 hc.1,
               (processPage_subset target _ seen disk).2 hc.2⟩

lemma crawl_log_nodup (pages : Nat → Nat → List Str) (numSeeds target : Nat) :
    ∀ (fuel idx start : Nat) (seen disk : Finset Str),
      (crawl pages numSeeds target fuel idx start seen disk).2.Nodup := by
  intro fuel
  induction fuel with
  | zero => intro idx start seen disk; exact List.nodup_nil
  | succ f ih =>
    intro idx start seen disk
    unfold crawl
    split
    · exact List.nodup_nil
    · dsimp only
      split
      · split
        · exact ih _ _ _ _
        · split <;> dsimp only <;>
            refine List.Nodup.append (processPage_log_nodup target _ seen disk)
              (ih _ _ _ _) (fun mid hpg hrec => ?_) <;>
            exact crawl_log_fresh pages numSeeds target f _ _ _ _ mid hrec
              (processPage_log_mem target _ seen disk mid hpg)
      · split
        · exact ih _ _ _ _
        · split <;> dsimp only <;>
            refine List.Nodup.append (processPage_log_nodup target _ seen disk)
              (ih _ _ _ _) (fun mid hpg hrec => ?_) <;>
            exact crawl_log_fresh pages numSeeds target f _ _ _ _ mid hrec
              (processPage_log_mem target _ seen disk mid hpg)

/-- C9: the crawler is resumable.  (i) If the run is interrupted after
the fetches of a prefix `pre` of the current page — the persisted state
is then exactly the crawl position `(idx, start)` of that page together
with the updated seen-set and files on disk — restarting from that
persisted state reproduces the uninterrupted run exactly: the same final
state, and the uninterrupted fetch sequence is the prefix's fetches
followed by the resumed run's fetches, so each remaining match is
fetched exactly once with no gap.  (ii) No match id that is in the
starting seen-set with its file on disk is ever fetched.  (iii) No match
id is fetched twice.  (iv) Within a page, every id not already
seen-with-file is fetched (no skip), as long as the target is not hit. -/
theorem c9_resumable (pages : Nat → Nat → List Str) (numSeeds target fuel : Nat)
    (idx start : Nat) (seen disk : Finset Str) (pre post : List Str)
    (hms : pages idx start = pre ++ post)
    (hne : pre ++ post ≠ [])
    (hidx : idx < numSeeds)
    (hb : seen.card + (pre ++ post).length < target) :
    ((crawl pages numSeeds target (fuel + 1) idx start seen disk).1 =
      (crawl pages numSeeds target (fuel + 1) idx start
        (processPage target seen disk pre).1.1
        (processPage target seen disk pre).1.2).1 ∧
     (crawl pages numSeeds target (fuel + 1) idx start seen disk).2 =
      (processPage target seen disk pre).2 ++
        (crawl pages numSeeds target (fuel + 1) idx start
          (processPage target seen disk pre).1.1
          (processPage target seen disk pre).1.2).2) ∧
    (∀ (f i o : Nat) (sn dk : Finset Str) (mid : Str),
      mid ∈ (crawl pages numSeeds target f i o sn dk).2 →
      ¬(mid ∈ sn ∧ mid ∈ dk)) ∧
    (∀ (f i o : Nat) (sn dk : Finset Str),
      (crawl pages numSeeds target f i o sn dk).2.Nodup) ∧
    (∀ (ms : List Str) (sn dk : Finset Str) (mid : Str),
      sn.card + ms.length ≤ target → mid ∈ ms → ¬(mid ∈ sn ∧ mid ∈ dk) →
      mid ∈ (processPage target sn dk ms).2) := by
  have hcard : seen.card < target := lt_of_le_of_lt (Nat.le_add_right _ _) hb
  have hlen : seen.card + (pre.length + post.length) < target := by
    rw [List.length_append] at hb
    exact hb
  have hpne : pages idx start ≠ [] := by rw [hms]; exact hne
  have hcard2 : (processPage target seen disk pre).1.1.card < target :=
    lt_of_le_of_lt (processPage_card_le target pre seen disk) (by omega)
  have habsorbed : ∀ mid ∈ pre,
      mid ∈ (processPage target seen disk pre).1.1 ∧
      mid ∈ (processPage target seen disk pre).1.2 :=
    fun mid hm => processPage_mem_after target pre seen disk mid (by omega) hm
  have happ := processPage_append target pre post seen disk (by omega)
  have habs2 := processPage_absorb_prefix target pre post
    (processPage target seen disk pre).1.1 (processPage target seen disk pre).1.2
    hcard2 habsorbed
  refine ⟨⟨?_, ?_⟩, ?_, ?_, ?_⟩
  · rw [crawl_step pages numSeeds target fuel idx start seen disk hcard hidx hpne,
      crawl_step pages numSeeds target fuel idx start _ _ hcard2 hidx hpne,
      hms, happ, habs2]
    by_cases h600 : 600 ≤ start + 200
    · simp only [if_pos h600]
    · simp only [if_neg h600]
  · rw [crawl_step pages numSeeds target fuel idx start seen disk hcard hidx hpne,
      crawl_step pages numSeeds target fuel idx start _ _ hcard2 hidx hpne,
      hms, happ, habs2]
    by_cases h600 : 600 ≤ start + 200
    · simp only [if_pos h600]
      exact List.append_assoc _ _ _
    · simp only [if_neg h600]
      exact List.append_assoc _ _ _
  · exact fun f i o sn dk mid h =>
      crawl_log_fresh pages numSeeds target f i o sn dk mid h
  · exact fun f i o sn dk => crawl_log_nodup pages numSeeds target f i o sn dk
  · exact fun ms sn dk mid hb2 hm he =>
      processPage_complete target ms sn dk mid hb2 hm he

theorem c9_resumable_witness :
    (pagesEx 0 0 = [str "m1"] ++ [str "m2", str "m3"]) ∧
    (crawl pagesEx 1 10 (1 + 1) 0 0 ∅ ∅).2 =
      (processPage 10 ∅ ∅ [str "m1"]).2 ++
        (crawl pagesEx 1 10 (1 + 1) 0 0
          (processPage 10 ∅ ∅ [str "m1"]).1.1
          (processPage 10 ∅ ∅ [str "m1"]).1.2).2 :=
  ⟨by decide,
    ((c9_resumable pagesEx 1 10 1 0 0 ∅ ∅ [str "m1"] [str "m2", str "m3"]
      (by decide) (by decide) (by decide) (by decide)).1).2⟩

/-- C7: the resumable crawler does not append a derived block: the file
it writes for an upstream response with no `_derived` key has none. -/
theorem c7_counterexample : (fetch10kSave exMatch).derived = none := rfl

/-- C7 (amended): the simple fetch script writes the upstream response
plus the `_derived` block holding the computed patch bucket and the
human-readable UTC timestamp, while the resumable crawler writes the
upstream response unchanged (its normalizer later falls back to the
version string); the patch bucket is the last window whose start is not
after the game time. -/
theorem c7_saved_files (m : RawMatch) (gms : Int)
    (hg : m.info.game_datetime = some gms) :
    fetch10kSave m = m ∧
    fetchDataSave m =
      some { m with derived := some (DerivedBlock.mk (some (patch_bucket gms)) (some (ms_to_utc_str gms))) } ∧
    patch_bucket 1770163200000 = str "TFT16.4" ∧
    patch_bucket 1769040000000 = str "TFT16.3" ∧
    patch_bucket 1767830400000 = str "TFT16.2" ∧
    patch_bucket 1767830399999 = str "TFT16.1x" ∧
    ms_to_utc_str 1770163200000 = str "2026-02-04 00:00:00 UTC" := by
  refine ⟨rfl, ?_, by decide, by decide, by decide, by decide, by decide⟩
  unfold fetchDataSave
  rw [hg]

theorem c7_saved_files_witness :
    exMatch.info.game_datetime = some 1770163200000 ∧
    fetchDataSave exMatch =
      some { exMatch with derived := some (DerivedBlock.mk (some (patch_bucket 1770163200000)) (some (ms_to_utc_str 1770163200000))) } :=
  ⟨rfl, (c7_saved_files exMatch 1770163200000 rfl).2.1⟩
